import Mathlib

/-!
Verification of the request-dispatch engine of a concurrent HTTP load tester
(`load_tester.py` / `app.py`).

The Python code is embedded shallowly:

* Python `dict`s keyed by URL strings become association lists (`Dict α`)
  with Python's lookup/assignment semantics; a lookup of a missing key is a
  `KeyError`, which the embedding raises explicitly.
* Python strings are Lean `String`s; the character-based helpers
  (`strStartsWith`, `strDrop`, ...) mirror Python's codepoint-based string
  operations.
* Wall-clock durations are rationals (`ℚ`).
* The nondeterminism of one worker call (random target, random header
  choices, random proxy pick, and the network outcome of the request) is an
  explicit oracle (`CallOracle`), so `make_request` is a pure function of the
  tester state and the oracle.
* Exceptions inside `make_request` are explicit: the `try` body returns
  `Except (PyExc × TesterState) _`, the error side carrying the state at the
  raise point exactly as a Python exception leaves prior mutations in place;
  the `except` clauses are the `outer_handler` dispatch.
-/

namespace PyYace

/-- Association-list model of a Python `dict` keyed by strings. -/
abbrev Dict (α : Type) := List (String × α)

/-- `d[k]` lookup: first binding wins (Python dicts have unique keys). -/
def dictGet? {α : Type} (d : Dict α) (k : String) : Option α :=
  match d with
  | [] => none
  | (k2, v) :: rest => if k2 = k then some v else dictGet? rest k

/-- `d[k] = v`: replace the binding if present, else append a new one. -/
def dictSet {α : Type} (d : Dict α) (k : String) (v : α) : Dict α :=
  match d with
  | [] => [(k, v)]
  | (k2, v2) :: rest => if k2 = k then (k2, v) :: rest else (k2, v2) :: dictSet rest k v

/-- Python `s.startswith(p)` (codepoint-based). -/
def strStartsWith (s p : String) : Bool := p.data.isPrefixOf s.data

/-- Python `s[n:]` (codepoint-based drop). -/
def strDrop (s : String) (n : Nat) : String := ⟨s.data.drop n⟩

/-- The codepoints Python `str.strip()` removes (CPython `Py_UNICODE_ISSPACE`:
ASCII control whitespace, the field/record/unit separators, NEL, and the
Unicode space characters). -/
def pyIsSpace (c : Char) : Bool :=
  [0x09, 0x0A, 0x0B, 0x0C, 0x0D, 0x1C, 0x1D, 0x1E, 0x1F, 0x20, 0x85, 0xA0,
   0x1680, 0x2000, 0x2001, 0x2002, 0x2003, 0x2004, 0x2005, 0x2006, 0x2007,
   0x2008, 0x2009, 0x200A, 0x2028, 0x2029, 0x202F, 0x205F, 0x3000].contains c.toNat

/-- Python `s.strip()`: remove leading and trailing whitespace. -/
def strTrim (s : String) : String :=
  ⟨((s.data.dropWhile pyIsSpace).reverse.dropWhile pyIsSpace).reverse⟩

/-- The netloc component of a parsed URL runs up to the first `/`, `?` or `#`. -/
def strTakeUntilDelim (s : String) : String :=
  ⟨s.data.takeWhile (fun c => !(c == '/') && !(c == '?') && !(c == '#'))⟩

/-- Python `c in s` on a single character. -/
def strContains (s : String) (c : Char) : Bool := s.data.contains c

/-- `netloc.partition('[')[2].partition(']')[0]`: the text between the first
`[` and the next `]`, as CPython extracts the bracketed host. -/
def bracketContent (s : String) : String :=
  ⟨((s.data.dropWhile (fun c => !(c == '['))).drop 1).takeWhile (fun c => !(c == ']'))⟩

/-- `url.startswith(('http://', 'https://'))` as used throughout the source. -/
def hasScheme (url : String) : Bool :=
  strStartsWith url "http://" || strStartsWith url "https://"

/-- The raw netloc text of a scheme-prefixed URL: what follows the `//` up to
the first `/`, `?` or `#` (the source only ever parses strings that begin
with `http://` or `https://`, prepending `https://` otherwise). -/
def rawNetlocOf (url : String) : String :=
  if strStartsWith url "http://" then strTakeUntilDelim (strDrop url 7)
  else if strStartsWith url "https://" then strTakeUntilDelim (strDrop url 8)
  else ""

/-- `urlparse(url).netloc` as a partial function: the error side carries the
message of the `ValueError` CPython's `urlsplit` raises. A `[` without `]`
(or vice versa) in the netloc raises `Invalid IPv6 URL` on every CPython; for
a matched bracket pair, CPython ≥ 3.11 additionally validates the bracketed
host as an IPv6/IPvFuture literal — that validator is kept abstract as
`bracketCheck` (`none` = valid, `some msg` = the `ValueError` it raises;
`fun _ => none` models interpreters before 3.11, which skip the check). -/
def pyNetloc (bracketCheck : String → Option String) (url : String) :
    Except String String :=
  let nl := rawNetlocOf url
  if strContains nl '[' && !(strContains nl ']') then .error "Invalid IPv6 URL"
  else if strContains nl ']' && !(strContains nl '[') then .error "Invalid IPv6 URL"
  else if strContains nl '[' && strContains nl ']' then
    match bracketCheck (bracketContent nl) with
    | some msg => .error msg
    | none => .ok nl
  else .ok nl

/-- The bracketed-host validator of interpreters before CPython 3.11, which
perform no validation of a matched bracket pair. -/
def noBracketCheck : String → Option String := fun _ => none

/-- `URLManager.__init__.process_url`: reject empty input, prepend `https://`
when the candidate does not start with `http://`/`https://`, then accept
exactly when `urlparse` succeeds with a non-empty netloc; a `ValueError` from
`urlparse` is caught and the candidate dropped (lines 46-48). -/
def process_url (bc : String → Option String) (url : String) : Option String :=
  if url = "" then none
  else
    let url2 := if hasScheme url then url else "https://" ++ url
    match pyNetloc bc url2 with
    | .ok nl => if nl ≠ "" then some url2 else none
    | .error _ => none

/-- The file-loading loop of `URLManager.__init__`: strip each line, skip
blank lines and `#` comments, keep (in order) the lines `process_url`
accepts. -/
def processFileLines (bc : String → Option String) : List String → List String
  | [] => []
  | line :: rest =>
    let line2 := strTrim line
    if line2 ≠ "" ∧ ¬ (strStartsWith line2 "#" = true) then
      match process_url bc line2 with
      | some p => p :: processFileLines bc rest
      | none => processFileLines bc rest
    else processFileLines bc rest

/-- The `self.urls` list built by `URLManager.__init__` from an optional single
URL and an optional URL file (`none` = file absent). -/
def urlmanager_urls (bc : String → Option String) (url : Option String)
    (file_lines : Option (List String)) : List String :=
  let base : List String :=
    match url with
    | some u =>
      if u = "" then []
      else
        match process_url bc u with
        | some p => [p]
        | none => []
    | none => []
  match file_lines with
  | some lines => base ++ processFileLines bc lines
  | none => base

/-- `URLManager.get_random_url`: `random.choice(self.urls)` when non-empty,
else `None`. The random draw is the oracle index `i` reduced mod the length. -/
def get_random_url (urls : List String) (i : Nat) : Option String :=
  match urls with
  | [] => none
  | _ :: _ => some (urls.getD (i % urls.length) "")

/-- The `{'http': ..., 'https': ...}` proxy dictionary returned by
`ProxyManager.get_random_proxy`. -/
structure ProxyDict where
  http : String
  https : String
deriving Repr, DecidableEq

/-- `random.choice` on a list of strings, driven by an oracle index. -/
def chooseStr (l : List String) (i : Nat) : String := l.getD (i % l.length) ""

/-- `random.choice` on a referer pool whose entries may be `None`. -/
def chooseOptStr (l : List (Option String)) (i : Nat) : Option String :=
  l.getD (i % l.length) none

/-- The two typed branches of `ProxyManager.get_random_proxy`: for an explicit
`proxy_type`, pick from that pool when non-empty (`http://` wrapping for
HTTP, `socks5h://` for SOCKS5), else fall through to `None`. -/
def get_random_proxy_typed (hp sp : List String) (t : String) (pick : Nat) :
    Option ProxyDict :=
  if t = "http" ∧ hp ≠ [] then
    let p := chooseStr hp pick
    some { http := "http://" ++ p, https := "http://" ++ p }
  else if t = "socks5" ∧ sp ≠ [] then
    let p := chooseStr sp pick
    some { http := "socks5h://" ++ p, https := "socks5h://" ++ p }
  else none

/-- The `available_types` list built when no proxy type was requested. -/
def availableTypes (hp sp : List String) : List String :=
  (if hp ≠ [] then ["http"] else []) ++ (if sp ≠ [] then ["socks5"] else [])

/-- Python falsiness of the optional `proxy_type` string: `not proxy_type`
is `True` for `None` and for the empty string. -/
def optFalsy (o : Option String) : Bool :=
  match o with
  | none => true
  | some t => t == ""

/-- `ProxyManager.get_random_proxy(proxy_type)`, mirroring the `if`/`elif`
chain of lines 129-144: `http`/`socks5` with a non-empty pool → wrapped
entry; a falsy `proxy_type` (`None` or `""`) with some pool non-empty →
choose a scheme among the non-empty pools and recurse with it (the recursive
call, with an explicit scheme, is `get_random_proxy_typed`); otherwise
`None`. -/
def get_random_proxy (hp sp : List String) (ptype : Option String) (pick tIdx : Nat) :
    Option ProxyDict :=
  if ptype = some "http" ∧ hp ≠ [] then
    let p := chooseStr hp pick
    some { http := "http://" ++ p, https := "http://" ++ p }
  else if ptype = some "socks5" ∧ sp ≠ [] then
    let p := chooseStr sp pick
    some { http := "socks5h://" ++ p, https := "socks5h://" ++ p }
  else if optFalsy ptype = true ∧ (hp ≠ [] ∨ sp ≠ []) then
    let avail := availableTypes hp sp
    if avail ≠ [] then get_random_proxy_typed hp sp (chooseStr avail tIdx) pick
    else none
  else none

/-- The exception kinds distinguished by `requests.exceptions.ConnectionError`
message matching in the `RequestException` handler (lines 355-363). -/
inductive ConnErrKind where
  | failedResolve
  | refused
  | reset
  | otherConn
deriving Repr, DecidableEq

/-- The outcome of the actual network call `requests.get`/`requests.post`:
either an HTTP response (status code plus elapsed seconds) or one of the
exception classes the source distinguishes. The `except` clause order of the
source is reflected in how these are dispatched, not in this type. -/
inductive NetOutcome where
  | response (status : Nat) (elapsed : ℚ)
  | proxyError (msg : String)
  | connectTimeout (msg : String)
  | sslError (msg : String)
  | connectionError (kind : ConnErrKind) (msg : String)
  | readTimeout (msg : String)
  | invalidURL (msg : String)
  | otherRequestError (msg : String)
  | otherError (msg : String)
deriving Repr, DecidableEq

/-- Python exceptions in flight inside `make_request`'s outer `try`. `keyError`
is raised by the embedding's dict operations on a missing key, exactly where
CPython would raise `KeyError`. -/
inductive PyExc where
  | keyError (k : String)
  | valueError (msg : String)
  | proxyError (msg : String)
  | connectTimeout (msg : String)
  | sslError (msg : String)
  | connectionError (kind : ConnErrKind) (msg : String)
  | readTimeout (msg : String)
  | invalidURL (msg : String)
  | otherRequestError (msg : String)
  | otherError (msg : String)
deriving Repr, DecidableEq

/-- The mutable state of a `LoadTester` instance: the caller-supplied base
headers (`self.headers`) and the seven per-URL statistics dictionaries. -/
structure TesterState where
  headers : Dict String
  response_times : Dict (List ℚ)
  success_count : Dict Nat
  failure_count : Dict Nat
  errors : Dict (List String)
  proxy_errors : Dict Nat
  proxy_timeouts : Dict Nat
  ssl_errors : Dict Nat
deriving Repr

/-- The read-only configuration of a `LoadTester` (the `__init__` fields that
`make_request`/`run` consult). `request_interval` is the value computed in
`__init__`; see `mkInterval`. -/
structure Config where
  request_interval : Option ℚ
  timeout : ℚ
  proxy_timeout : ℚ
  fake_ip : Bool
  user_agents : List String
  referers : List (Option String)
  has_proxy_manager : Bool
  http_proxies : List String
  socks5_proxies : List String
  proxy_type : Option String
  num_requests : Nat

/-- `__init__` lines 184-188: `request_interval = 1 / requests_per_second`
when a truthy (non-zero) rate is configured, else `None`. -/
def mkInterval (rps : Option ℚ) : Option ℚ :=
  match rps with
  | some r => if r ≠ 0 then some (1 / r) else none
  | none => none

/-- The random draws and the network outcome of one `make_request` call. -/
structure CallOracle where
  cancelled : Bool
  target : Option String
  ua_idx : Nat
  fake_ip_val : String
  referer_idx : Nat
  proxy_pick : Nat
  proxy_type_pick : Nat
  outcome : NetOutcome

/-- Python truthiness of `headers.get(k)`: `False` for a missing key, for
`None`, and for the empty string. -/
def truthyGet (d : Dict String) (k : String) : Bool :=
  match dictGet? d k with
  | some v => !(v == "")
  | none => false

/-- `LoadTester.get_request_headers`: copy the base headers, inject a random
`User-Agent` when absent, the spoofed forwarded-address pair when `fake_ip`
is on, and a random `Referer` (the pool may contain `None`, skipped when
drawn). Operates on a copy; the base dictionary is not written. -/
def get_request_headers (cfg : Config) (base : Dict String) (o : CallOracle) :
    Dict String :=
  let headers := base
  let headers :=
    if !(truthyGet headers "User-Agent") then
      dictSet headers "User-Agent" (chooseStr cfg.user_agents o.ua_idx)
    else headers
  let headers :=
    if cfg.fake_ip then
      dictSet (dictSet headers "X-Forwarded-For" o.fake_ip_val) "X-Real-IP" o.fake_ip_val
    else headers
  let headers :=
    if !cfg.referers.isEmpty && !(truthyGet headers "Referer") then
      match chooseOptStr cfg.referers o.referer_idx with
      | some r => if r ≠ "" then dictSet headers "Referer" r else headers
      | none => headers
    else headers
  headers

/-- Counter read with Python-dict default of "absent": a missing key counts
as 0 for stating theorems (lookups in the code itself never default). -/
def getCnt (d : Dict Nat) (k : String) : Nat := (dictGet? d k).getD 0

/-- Latency samples of a target, `[]` when the key is absent. -/
def getTimes (d : Dict (List ℚ)) (k : String) : List ℚ := (dictGet? d k).getD []

/-- Error messages of a target, `[]` when the key is absent. -/
def getErrs (d : Dict (List String)) (k : String) : List String := (dictGet? d k).getD []

/-- `LoadTester._init_url_stats`: seed all seven per-URL entries the first
time a URL is observed (membership test on `response_times`, as in source). -/
def init_url_stats (st : TesterState) (url : String) : TesterState :=
  if (dictGet? st.response_times url).isSome then st
  else
    { st with
      response_times := dictSet st.response_times url []
      success_count := dictSet st.success_count url 0
      failure_count := dictSet st.failure_count url 0
      errors := dictSet st.errors url []
      proxy_errors := dictSet st.proxy_errors url 0
      proxy_timeouts := dictSet st.proxy_timeouts url 0
      ssl_errors := dictSet st.ssl_errors url 0 }

/-- Computation inside `make_request`'s `try` block: the error side carries
the state at the raise point, as a Python exception leaves prior mutations in
place. -/
abbrev ExcM (α : Type) := Except (PyExc × TesterState) α

/-- `self.failure_count[target_url] += 1`. -/
def stepFail (st : TesterState) (u : String) : ExcM TesterState :=
  match dictGet? st.failure_count u with
  | some n => .ok { st with failure_count := dictSet st.failure_count u (n + 1) }
  | none => .error (.keyError u, st)

/-- `self.success_count[target_url] += 1`. -/
def stepSucc (st : TesterState) (u : String) : ExcM TesterState :=
  match dictGet? st.success_count u with
  | some n => .ok { st with success_count := dictSet st.success_count u (n + 1) }
  | none => .error (.keyError u, st)

/-- `self.proxy_errors[target_url] += 1`. -/
def stepProxyErr (st : TesterState) (u : String) : ExcM TesterState :=
  match dictGet? st.proxy_errors u with
  | some n => .ok { st with proxy_errors := dictSet st.proxy_errors u (n + 1) }
  | none => .error (.keyError u, st)

/-- `self.proxy_timeouts[target_url] += 1`. -/
def stepProxyTimeout (st : TesterState) (u : String) : ExcM TesterState :=
  match dictGet? st.proxy_timeouts u with
  | some n => .ok { st with proxy_timeouts := dictSet st.proxy_timeouts u (n + 1) }
  | none => .error (.keyError u, st)

/-- `self.ssl_errors[target_url] += 1`. -/
def stepSslErr (st : TesterState) (u : String) : ExcM TesterState :=
  match dictGet? st.ssl_errors u with
  | some n => .ok { st with ssl_errors := dictSet st.ssl_errors u (n + 1) }
  | none => .error (.keyError u, st)

/-- `self.errors[target_url].append(msg)`. -/
def stepAppendErr (st : TesterState) (u msg : String) : ExcM TesterState :=
  match dictGet? st.errors u with
  | some l => .ok { st with errors := dictSet st.errors u (l ++ [msg]) }
  | none => .error (.keyError u, st)

/-- `self.response_times[target_url].append(elapsed_time)`. -/
def stepAppendTime (st : TesterState) (u : String) (t : ℚ) : ExcM TesterState :=
  match dictGet? st.response_times u with
  | some l => .ok { st with response_times := dictSet st.response_times u (l ++ [t]) }
  | none => .error (.keyError u, st)

/-- Lines 328-332: with a truthy `request_interval`, sleep the remainder of
the interval after the elapsed request time (only when positive). Returns the
slept duration, 0 when no sleep happens. -/
def sleepOf (cfg : Config) (elapsed : ℚ) : ℚ :=
  match cfg.request_interval with
  | some iv => if iv ≠ 0 then (if iv - elapsed > 0 then iv - elapsed else 0) else 0
  | none => 0

/-- Lines 317-332: a response was obtained — record the latency sample, then
classify by status code (200 → success, otherwise failure plus an error
message), then apply the rate-limit sleep. -/
def handle_response (cfg : Config) (st : TesterState) (u : String)
    (status : Nat) (elapsed : ℚ) : ExcM (TesterState × ℚ) := do
  let st1 ← stepAppendTime st u elapsed
  if status = 200 then
    let st2 ← stepSucc st1 u
    pure (st2, sleepOf cfg elapsed)
  else
    let st2 ← stepFail st1 u
    let st3 ← stepAppendErr st2 u ("状态码: " ++ toString status)
    pure (st3, sleepOf cfg elapsed)

/-- Lines 310-315: the inner `except InvalidURL` clause — count a failure,
append the invalid-URL message, and return from `make_request`. -/
def invalid_url_handler (st : TesterState) (u : String) : ExcM TesterState := do
  let st1 ← stepFail st u
  stepAppendErr st1 u ("无效的URL: " ++ u)

/-- Lines 280-315, the inner `try`: parse the (already re-normalized) URL —
a `ValueError` from `urlparse` (bracketed-host rejection) propagates, since
the inner clause catches only `InvalidURL` — raise `InvalidURL` on an empty
netloc, then perform the request. `InvalidURL` is caught here (whether raised
manually or by the library); every other exception propagates to the outer
handlers. -/
def try_body (cfg : Config) (bc : String → Option String) (st : TesterState)
    (u2 : String) (outcome : NetOutcome) : ExcM (TesterState × ℚ) :=
  match pyNetloc bc u2 with
  | .error msg => .error (.valueError msg, st)
  | .ok nl =>
  if nl = "" then
    match invalid_url_handler st u2 with
    | .ok st2 => .ok (st2, 0)
    | .error e => .error e
  else
    match outcome with
    | .response status elapsed => handle_response cfg st u2 status elapsed
    | .invalidURL _ =>
      match invalid_url_handler st u2 with
      | .ok st2 => .ok (st2, 0)
      | .error e => .error e
    | .proxyError msg => .error (.proxyError msg, st)
    | .connectTimeout msg => .error (.connectTimeout msg, st)
    | .sslError msg => .error (.sslError msg, st)
    | .connectionError kind msg => .error (.connectionError kind msg, st)
    | .readTimeout msg => .error (.readTimeout msg, st)
    | .otherRequestError msg => .error (.otherRequestError msg, st)
    | .otherError msg => .error (.otherError msg, st)

/-- An exception raised inside an `except` clause propagates out of
`make_request`; the escaping state is what the worker leaves behind. -/
def escape {α : Type} : ExcM α → Except TesterState α
  | .ok a => .ok a
  | .error (_, st) => .error st

/-- Python `str()` of a `KeyError` wraps the key in single quotes. -/
def pyQuote (s : String) : String :=
  (Char.ofNat 39).toString ++ s ++ (Char.ofNat 39).toString

/-- `str(e)` for the exceptions reaching the generic handlers. -/
def pyStrOfExc : PyExc → String
  | .keyError k => pyQuote k
  | .valueError msg => msg
  | .proxyError msg => msg
  | .connectTimeout msg => msg
  | .sslError msg => msg
  | .connectionError _ msg => msg
  | .readTimeout msg => msg
  | .invalidURL msg => msg
  | .otherRequestError msg => msg
  | .otherError msg => msg

/-- Lines 334-380, the outer `except` chain of `make_request`, dispatched in
source order: `ProxyError`, `ConnectTimeout` (proxy-timeout counter bumped
only when a proxy dictionary was obtained), `SSLError`, `RequestException`
(with the `ConnectionError`/`ReadTimeout`/`ConnectTimeout`/`SSLError`/
`InvalidURL` message rewrites), then bare `Exception`. -/
def outer_handler (e : PyExc) (st : TesterState) (u : String) (proxies_some : Bool) :
    Except TesterState TesterState :=
  match e with
  | .proxyError msg => escape (do
      let st1 ← stepFail st u
      let st2 ← stepProxyErr st1 u
      stepAppendErr st2 u ("代理错误: " ++ msg))
  | .connectTimeout msg => escape (do
      let st1 ← stepFail st u
      let st2 ← if proxies_some then stepProxyTimeout st1 u else pure st1
      stepAppendErr st2 u ("连接超时: " ++ msg))
  | .sslError msg => escape (do
      let st1 ← stepFail st u
      let st2 ← stepSslErr st1 u
      stepAppendErr st2 u ("SSL错误: " ++ msg))
  | .connectionError kind _ => escape (do
      let st1 ← stepFail st u
      let emsg :=
        match kind with
        | .failedResolve => "无法解析域名: " ++ u
        | .refused => "连接被拒绝: " ++ u
        | .reset => "连接被重置: " ++ u
        | .otherConn => "连接错误: " ++ u
      stepAppendErr st1 u emsg)
  | .readTimeout _ => escape (do
      let st1 ← stepFail st u
      stepAppendErr st1 u ("读取超时: " ++ u))
  | .invalidURL _ => escape (do
      let st1 ← stepFail st u
      stepAppendErr st1 u ("无效的URL: " ++ u))
  | .otherRequestError msg => escape (do
      let st1 ← stepFail st u
      stepAppendErr st1 u ("请求错误: " ++ u ++ " - " ++ msg))
  | .keyError k => escape (do
      let st1 ← stepFail st u
      stepAppendErr st1 u ("其他错误: " ++ pyQuote k))
  | .valueError msg => escape (do
      let st1 ← stepFail st u
      stepAppendErr st1 u ("其他错误: " ++ msg))
  | .otherError msg => escape (do
      let st1 ← stepFail st u
      stepAppendErr st1 u ("其他错误: " ++ msg))

/-- Lines 272-278: a proxy dictionary is requested only when a `ProxyManager`
was supplied and it has at least one pool entry. -/
def proxiesOf (cfg : Config) (o : CallOracle) : Option ProxyDict :=
  if cfg.has_proxy_manager && (!cfg.http_proxies.isEmpty || !cfg.socks5_proxies.isEmpty) then
    get_random_proxy cfg.http_proxies cfg.socks5_proxies cfg.proxy_type
      o.proxy_pick o.proxy_type_pick
  else none

/-- `LoadTester.make_request`: cooperative-cancellation check, random target
selection (no-op when no target), lazy per-URL stat initialization, header
and proxy assembly, then the guarded request with the full exception chain.
`Except.error` means an exception escaped the worker (caught at the task
boundary in `run`); the second component of a normal result is the rate-limit
sleep performed. -/
def make_request (cfg : Config) (bc : String → Option String) (st0 : TesterState)
    (o : CallOracle) : Except TesterState (TesterState × ℚ) :=
  if o.cancelled then .ok (st0, 0)
  else
    match o.target with
    | none => .ok (st0, 0)
    | some target_url =>
      let st := init_url_stats st0 target_url
      let _headers := get_request_headers cfg st.headers o
      let proxies := proxiesOf cfg o
      let _current_timeout := if proxies.isSome then cfg.proxy_timeout else cfg.timeout
      let target_url2 := if hasScheme target_url then target_url else "https://" ++ target_url
      match try_body cfg bc st target_url2 o.outcome with
      | .ok (st2, sleepAmt) => .ok (st2, sleepAmt)
      | .error (e, st2) =>
        match outer_handler e st2 target_url2 proxies.isSome with
        | .ok st3 => .ok (st3, 0)
        | .error st3 => .error st3

/-- The submission loop of `LoadTester.run` (lines 390-393): before each of
the `num_requests` submissions the cancellation flag is polled (poll `i` for
iteration `i`); on the first `True` the loop breaks. Returns the indices of
the submitted tasks. -/
def submitFrom (cancel : Nat → Bool) : Nat → Nat → List Nat
  | _, 0 => []
  | i, n + 1 => if cancel i then [] else i :: submitFrom cancel (i + 1) n

/-- Lines 396-400: every submitted future is awaited; a worker exception is
caught and logged at the task boundary, leaving the worker's last state. -/
def runTasks (cfg : Config) (bc : String → Option String) (st : TesterState)
    (oracles : Nat → CallOracle) (idxs : List Nat) : TesterState :=
  idxs.foldl (fun s i =>
    match make_request cfg bc s (oracles i) with
    | .ok (s2, _) => s2
    | .error s2 => s2) st

/-- `LoadTester.run`: submit under the cancellation poll, then drain. -/
def LoadTester_run (cfg : Config) (bc : String → Option String) (st : TesterState)
    (cancel : Nat → Bool) (oracles : Nat → CallOracle) : TesterState :=
  runTasks cfg bc st oracles (submitFrom cancel 0 cfg.num_requests)

/-- The terminal status reported by `app.run_load_test`. -/
inductive RunStatus where
  | completed
  | cancelled
deriving Repr, DecidableEq

/-- `app.run_load_test` lines 117-139: run the tester, then report
`cancelled` exactly when one final poll of the flag (poll index
`num_requests`, after every loop poll) reads `True`, else `completed`. -/
def run_load_test (cfg : Config) (bc : String → Option String) (st : TesterState)
    (cancel : Nat → Bool) (oracles : Nat → CallOracle) : TesterState × RunStatus :=
  let st2 := LoadTester_run cfg bc st cancel oracles
  (st2, if cancel cfg.num_requests then .cancelled else .completed)

/-- Insertion into a sorted list, for `statistics.median`'s internal sort. -/
def insertSorted (x : ℚ) : List ℚ → List ℚ
  | [] => [x]
  | y :: ys => if x ≤ y then x :: y :: ys else y :: insertSorted x ys

/-- Sorting a latency sample list. -/
def sortQ (l : List ℚ) : List ℚ := l.foldr insertSorted []

/-- `min(l)` over a non-empty list (0 on `[]`, a case the source guards). -/
def listMin : List ℚ → ℚ
  | [] => 0
  | x :: xs => xs.foldl min x

/-- `max(l)` over a non-empty list (0 on `[]`, a case the source guards). -/
def listMax : List ℚ → ℚ
  | [] => 0
  | x :: xs => xs.foldl max x

/-- `statistics.mean`. -/
def meanQ (l : List ℚ) : ℚ := l.sum / (l.length : ℚ)

/-- `statistics.median`: middle element of the sorted samples, or the average
of the two middle elements for an even count. -/
def medianQ (l : List ℚ) : ℚ :=
  let s := sortQ l
  let n := s.length
  if n % 2 = 1 then s.getD (n / 2) 0
  else (s.getD (n / 2 - 1) 0 + s.getD (n / 2) 0) / 2

/-- One per-target block of `LoadTester.print_results` output. -/
structure ReportEntry where
  total_requests : Nat
  success_count : Nat
  failure_count : Nat
  success_rate : ℚ
  proxy_errors : Nat
  proxy_timeouts : Nat
  ssl_errors : Nat
  avg_time : ℚ
  min_time : ℚ
  max_time : ℚ
  median_time : ℚ
  std_dev : ℚ
  rps : ℚ
  error_messages : List String
deriving Repr

/-- The per-URL loop of `LoadTester.print_results` (lines 414-446), walking
the `response_times` entries in order. A target with no latency samples is
skipped outright (`continue`) and produces no entry. `stdevFn` stands for
`statistics.stdev`, which the source only ever calls on two or more samples
(its value is irrational in general, so it is kept abstract); the reported
standard deviation is 0 for fewer than two samples without calling it. -/
def report_entries (stdevFn : List ℚ → ℚ) (total_time : ℚ) (st : TesterState) :
    List (String × List ℚ) → Except PyExc (List (String × ReportEntry))
  | [] => .ok []
  | (url, ts) :: rest =>
    if ts.isEmpty then report_entries stdevFn total_time st rest
    else
      match dictGet? st.success_count url, dictGet? st.failure_count url,
            dictGet? st.proxy_errors url, dictGet? st.proxy_timeouts url,
            dictGet? st.ssl_errors url, dictGet? st.errors url with
      | some sc, some fc, some pe, some pt, some se, some er =>
        let total := sc + fc
        let entry : ReportEntry :=
          { total_requests := total
            success_count := sc
            failure_count := fc
            success_rate := if total > 0 then (sc : ℚ) / (total : ℚ) * 100 else 0
            proxy_errors := pe
            proxy_timeouts := pt
            ssl_errors := se
            avg_time := meanQ ts
            min_time := listMin ts
            max_time := listMax ts
            median_time := medianQ ts
            std_dev := if ts.length > 1 then stdevFn ts else 0
            rps := (total : ℚ) / total_time
            error_messages := er }
        match report_entries stdevFn total_time st rest with
        | .ok r => .ok ((url, entry) :: r)
        | .error e2 => .error e2
      | _, _, _, _, _, _ => .error (.keyError url)

/-- `LoadTester.print_results` as a value: the list of per-target report
blocks (`total_time` is the wall-clock duration between the recorded start
and end timestamps). -/
def print_results (stdevFn : List ℚ → ℚ) (total_time : ℚ) (st : TesterState) :
    Except PyExc (List (String × ReportEntry)) :=
  report_entries stdevFn total_time st st.response_times

/-- Key-set consistency at one URL: the seven statistics dictionaries track a
URL together or not at all (maintained by `_init_url_stats`). -/
def WFat (st : TesterState) (u : String) : Bool :=
  ((dictGet? st.success_count u).isSome == (dictGet? st.response_times u).isSome) &&
  ((dictGet? st.failure_count u).isSome == (dictGet? st.response_times u).isSome) &&
  ((dictGet? st.errors u).isSome == (dictGet? st.response_times u).isSome) &&
  ((dictGet? st.proxy_errors u).isSome == (dictGet? st.response_times u).isSome) &&
  ((dictGet? st.proxy_timeouts u).isSome == (dictGet? st.response_times u).isSome) &&
  ((dictGet? st.ssl_errors u).isSome == (dictGet? st.response_times u).isSome)

/-- All seven dictionaries have an entry for `u`. -/
def ReadyAt (st : TesterState) (u : String) : Prop :=
  (dictGet? st.response_times u).isSome = true ∧
  (dictGet? st.success_count u).isSome = true ∧
  (dictGet? st.failure_count u).isSome = true ∧
  (dictGet? st.errors u).isSome = true ∧
  (dictGet? st.proxy_errors u).isSome = true ∧
  (dictGet? st.proxy_timeouts u).isSome = true ∧
  (dictGet? st.ssl_errors u).isSome = true

/-- The outcome classes the per-target failure taxonomy calls network-layer
failures: exceptions from the transport (proxy, timeouts, TLS, DNS/refused/
reset/other connection faults, other request-library errors). An HTTP
response (any status) and a non-`requests` exception are not among them. -/
def isNetworkFailure : NetOutcome → Bool
  | .proxyError _ => true
  | .connectTimeout _ => true
  | .sslError _ => true
  | .connectionError _ _ => true
  | .readTimeout _ => true
  | .otherRequestError _ => true
  | _ => false

/-- A fresh tester state (no base headers, no targets observed yet). -/
def emptyState : TesterState := ⟨[], [], [], [], [], [], [], []⟩

/-- A small concrete configuration used to evaluate the theorems. -/
def sampleConfig : Config :=
  { request_interval := none
    timeout := 30
    proxy_timeout := 3
    fake_ip := false
    user_agents := ["ua"]
    referers := [none]
    has_proxy_manager := false
    http_proxies := []
    socks5_proxies := []
    proxy_type := none
    num_requests := 2 }

/-- A concrete oracle: live call against `https://a`, HTTP 200 in 1 second. -/
def sampleOracle : CallOracle :=
  { cancelled := false
    target := some "https://a"
    ua_idx := 0
    fake_ip_val := "1.2.3.4"
    referer_idx := 0
    proxy_pick := 0
    proxy_type_pick := 0
    outcome := .response 200 1 }

/-- A concrete post-run state: one target `a` with a single latency sample. -/
def wReportState : TesterState :=
  ⟨[], [("a", [1])], [("a", 1)], [("a", 0)], [("a", [])], [("a", 0)], [("a", 0)], [("a", 0)]⟩

/-- The state a `try`-block computation leaves behind, on either outcome. -/
def prjS : ExcM TesterState → TesterState
  | .ok s => s
  | .error (_, s) => s

/-- The state a `try`-block computation with a result pair leaves behind. -/
def prjP : ExcM (TesterState × ℚ) → TesterState
  | .ok (s, _) => s
  | .error (_, s) => s

/-- The state an `except`-clause computation leaves behind. -/
def prjE : Except TesterState TesterState → TesterState
  | .ok s => s
  | .error s => s

/-- The state a whole `make_request` call leaves behind (normal return or
escaped exception). -/
def headersOfResult : Except TesterState (TesterState × ℚ) → Dict String
  | .ok (s, _) => s.headers
  | .error s => s.headers

theorem dictGet?_set_self {α : Type} (d : Dict α) (k : String) (v : α) :
    dictGet? (dictSet d k v) k = some v := by
  induction d with
  | nil => simp [dictSet, dictGet?]
  | cons h t ih =>
    obtain ⟨k2, v2⟩ := h
    by_cases hk : k2 = k <;> simp [dictSet, dictGet?, hk, ih]

theorem dictGet?_set_ne {α : Type} (d : Dict α) (k k2 : String) (v : α) (h : k2 ≠ k) :
    dictGet? (dictSet d k v) k2 = dictGet? d k2 := by
  have h2 : ¬ k = k2 := fun hh => h hh.symm
  induction d with
  | nil => simp [dictSet, dictGet?, h2]
  | cons hd t ih =>
    obtain ⟨k3, v3⟩ := hd
    by_cases hk : k3 = k
    · subst hk
      simp [dictSet, dictGet?, h2]
    · simp [dictSet, dictGet?, hk, ih]

theorem getCnt_set_self (d : Dict Nat) (u : String) (x : Nat) :
    getCnt (dictSet d u x) u = x := by
  simp [getCnt, dictGet?_set_self]

theorem getCnt_set_ne (d : Dict Nat) (u v : String) (x : Nat) (h : v ≠ u) :
    getCnt (dictSet d u x) v = getCnt d v := by
  simp [getCnt, dictGet?_set_ne _ _ _ _ h]

theorem getTimes_set_self (d : Dict (List ℚ)) (u : String) (x : List ℚ) :
    getTimes (dictSet d u x) u = x := by
  simp [getTimes, dictGet?_set_self]

theorem getTimes_set_ne (d : Dict (List ℚ)) (u v : String) (x : List ℚ) (h : v ≠ u) :
    getTimes (dictSet d u x) v = getTimes d v := by
  simp [getTimes, dictGet?_set_ne _ _ _ _ h]

theorem getErrs_set_self (d : Dict (List String)) (u : String) (x : List String) :
    getErrs (dictSet d u x) u = x := by
  simp [getErrs, dictGet?_set_self]

theorem getErrs_set_ne (d : Dict (List String)) (u v : String) (x : List String) (h : v ≠ u) :
    getErrs (dictSet d u x) v = getErrs d v := by
  simp [getErrs, dictGet?_set_ne _ _ _ _ h]

theorem notSome_eq_none {α : Type} {x : Option α} (h : ¬ x.isSome = true) : x = none := by
  cases x <;> simp_all

theorem init_headers (st0 : TesterState) (u : String) :
    (init_url_stats st0 u).headers = st0.headers := by
  unfold init_url_stats; split <;> rfl

theorem init_ready (st0 : TesterState) (u : String) (h : WFat st0 u = true) :
    ReadyAt (init_url_stats st0 u) u := by
  simp only [WFat, Bool.and_eq_true, beq_iff_eq] at h
  obtain ⟨⟨⟨⟨⟨h1, h2⟩, h3⟩, h4⟩, h5⟩, h6⟩ := h
  unfold ReadyAt init_url_stats
  by_cases hrt : (dictGet? st0.response_times u).isSome = true
  · rw [if_pos hrt]
    exact ⟨hrt, h1.trans hrt, h2.trans hrt, h3.trans hrt, h4.trans hrt,
      h5.trans hrt, h6.trans hrt⟩
  · rw [if_neg hrt]
    simp [dictGet?_set_self]

theorem init_counts (st0 : TesterState) (u : String) (h : WFat st0 u = true) :
    getCnt (init_url_stats st0 u).success_count u = getCnt st0.success_count u ∧
    getCnt (init_url_stats st0 u).failure_count u = getCnt st0.failure_count u ∧
    getCnt (init_url_stats st0 u).proxy_errors u = getCnt st0.proxy_errors u ∧
    getCnt (init_url_stats st0 u).proxy_timeouts u = getCnt st0.proxy_timeouts u ∧
    getCnt (init_url_stats st0 u).ssl_errors u = getCnt st0.ssl_errors u ∧
    getTimes (init_url_stats st0 u).response_times u = getTimes st0.response_times u ∧
    getErrs (init_url_stats st0 u).errors u = getErrs st0.errors u := by
  simp only [WFat, Bool.and_eq_true, beq_iff_eq] at h
  obtain ⟨⟨⟨⟨⟨h1, h2⟩, h3⟩, h4⟩, h5⟩, h6⟩ := h
  unfold init_url_stats
  by_cases hrt : (dictGet? st0.response_times u).isSome = true
  · rw [if_pos hrt]
    exact ⟨rfl, rfl, rfl, rfl, rfl, rfl, rfl⟩
  · rw [if_neg hrt]
    have e0 := notSome_eq_none hrt
    have e1 : dictGet? st0.success_count u = none := notSome_eq_none (by rw [h1]; exact hrt)
    have e2 : dictGet? st0.failure_count u = none := notSome_eq_none (by rw [h2]; exact hrt)
    have e3 : dictGet? st0.errors u = none := notSome_eq_none (by rw [h3]; exact hrt)
    have e4 : dictGet? st0.proxy_errors u = none := notSome_eq_none (by rw [h4]; exact hrt)
    have e5 : dictGet? st0.proxy_timeouts u = none := notSome_eq_none (by rw [h5]; exact hrt)
    have e6 : dictGet? st0.ssl_errors u = none := notSome_eq_none (by rw [h6]; exact hrt)
    simp [getCnt, getTimes, getErrs, dictGet?_set_self, e0, e1, e2, e3, e4, e5, e6]

theorem init_frame (st0 : TesterState) (u v : String) (hv : v ≠ u) :
    dictGet? (init_url_stats st0 u).response_times v = dictGet? st0.response_times v ∧
    dictGet? (init_url_stats st0 u).success_count v = dictGet? st0.success_count v ∧
    dictGet? (init_url_stats st0 u).failure_count v = dictGet? st0.failure_count v ∧
    dictGet? (init_url_stats st0 u).errors v = dictGet? st0.errors v ∧
    dictGet? (init_url_stats st0 u).proxy_errors v = dictGet? st0.proxy_errors v ∧
    dictGet? (init_url_stats st0 u).proxy_timeouts v = dictGet? st0.proxy_timeouts v ∧
    dictGet? (init_url_stats st0 u).ssl_errors v = dictGet? st0.ssl_errors v := by
  unfold init_url_stats
  split
  · exact ⟨rfl, rfl, rfl, rfl, rfl, rfl, rfl⟩
  · simp [dictGet?_set_ne _ _ _ _ hv]

theorem excmBindOk {α β : Type} (a : α) (f : α → ExcM β) :
    (Except.ok a >>= f : ExcM β) = f a := rfl

theorem stepFail_eq (st : TesterState) (u : String)
    (h : (dictGet? st.failure_count u).isSome = true) :
    stepFail st u = .ok
      { st with failure_count := dictSet st.failure_count u (getCnt st.failure_count u + 1) } := by
  unfold stepFail
  obtain ⟨n, hn⟩ := Option.isSome_iff_exists.mp h
  rw [hn]
  simp [getCnt, hn]

theorem stepSucc_eq (st : TesterState) (u : String)
    (h : (dictGet? st.success_count u).isSome = true) :
    stepSucc st u = .ok
      { st with success_count := dictSet st.success_count u (getCnt st.success_count u + 1) } := by
  unfold stepSucc
  obtain ⟨n, hn⟩ := Option.isSome_iff_exists.mp h
  rw [hn]
  simp [getCnt, hn]

theorem stepProxyErr_eq (st : TesterState) (u : String)
    (h : (dictGet? st.proxy_errors u).isSome = true) :
    stepProxyErr st u = .ok
      { st with proxy_errors := dictSet st.proxy_errors u (getCnt st.proxy_errors u + 1) } := by
  unfold stepProxyErr
  obtain ⟨n, hn⟩ := Option.isSome_iff_exists.mp h
  rw [hn]
  simp [getCnt, hn]

theorem stepProxyTimeout_eq (st : TesterState) (u : String)
    (h : (dictGet? st.proxy_timeouts u).isSome = true) :
    stepProxyTimeout st u = .ok
      { st with proxy_timeouts := dictSet st.proxy_timeouts u (getCnt st.proxy_timeouts u + 1) } := by
  unfold stepProxyTimeout
  obtain ⟨n, hn⟩ := Option.isSome_iff_exists.mp h
  rw [hn]
  simp [getCnt, hn]

theorem stepSslErr_eq (st : TesterState) (u : String)
    (h : (dictGet? st.ssl_errors u).isSome = true) :
    stepSslErr st u = .ok
      { st with ssl_errors := dictSet st.ssl_errors u (getCnt st.ssl_errors u + 1) } := by
  unfold stepSslErr
  obtain ⟨n, hn⟩ := Option.isSome_iff_exists.mp h
  rw [hn]
  simp [getCnt, hn]

theorem stepAppendErr_eq (st : TesterState) (u msg : String)
    (h : (dictGet? st.errors u).isSome = true) :
    stepAppendErr st u msg = .ok
      { st with errors := dictSet st.errors u (getErrs st.errors u ++ [msg]) } := by
  unfold stepAppendErr
  obtain ⟨l, hl⟩ := Option.isSome_iff_exists.mp h
  rw [hl]
  simp [getErrs, hl]

theorem stepAppendTime_eq (st : TesterState) (u : String) (t : ℚ)
    (h : (dictGet? st.response_times u).isSome = true) :
    stepAppendTime st u t = .ok
      { st with response_times := dictSet st.response_times u (getTimes st.response_times u ++ [t]) } := by
  unfold stepAppendTime
  obtain ⟨l, hl⟩ := Option.isSome_iff_exists.mp h
  rw [hl]
  simp [getTimes, hl]

theorem excmPure {α : Type} (a : α) : (pure a : ExcM α) = Except.ok a := rfl

theorem invalid_url_handler_eq (st : TesterState) (u : String) (fcv : Nat) (erv : List String)
    (hfc : dictGet? st.failure_count u = some fcv)
    (her : dictGet? st.errors u = some erv) :
    invalid_url_handler st u = .ok
      { st with
        failure_count := dictSet st.failure_count u (fcv + 1)
        errors := dictSet st.errors u (erv ++ ["无效的URL: " ++ u]) } := by
  simp [invalid_url_handler, stepFail, stepAppendErr, hfc, her, excmBindOk]

theorem handle_response_eq (cfg : Config) (st : TesterState) (u : String)
    (status : Nat) (t : ℚ) (rts : List ℚ) (scv fcv : Nat) (erv : List String)
    (hrt : dictGet? st.response_times u = some rts)
    (hsc : dictGet? st.success_count u = some scv)
    (hfc : dictGet? st.failure_count u = some fcv)
    (her : dictGet? st.errors u = some erv) :
    handle_response cfg st u status t = .ok
      ((if status = 200 then
          { st with
            response_times := dictSet st.response_times u (rts ++ [t])
            success_count := dictSet st.success_count u (scv + 1) }
        else
          { st with
            response_times := dictSet st.response_times u (rts ++ [t])
            failure_count := dictSet st.failure_count u (fcv + 1)
            errors := dictSet st.errors u (erv ++ ["状态码: " ++ toString status]) }),
       sleepOf cfg t) := by
  by_cases hs : status = 200 <;>
    simp [handle_response, stepAppendTime, stepSucc, stepFail, stepAppendErr,
      hrt, hsc, hfc, her, hs, excmBindOk, excmPure]

theorem outer_handler_connectTimeout_eq (st : TesterState) (u msg : String) (pr : Bool)
    (fcv ptv : Nat) (erv : List String)
    (hfc : dictGet? st.failure_count u = some fcv)
    (hpt : dictGet? st.proxy_timeouts u = some ptv)
    (her : dictGet? st.errors u = some erv) :
    outer_handler (.connectTimeout msg) st u pr = .ok
      { st with
        failure_count := dictSet st.failure_count u (fcv + 1)
        proxy_timeouts :=
          if pr then dictSet st.proxy_timeouts u (ptv + 1) else st.proxy_timeouts
        errors := dictSet st.errors u (erv ++ ["连接超时: " ++ msg]) } := by
  cases pr <;>
    simp [outer_handler, escape, stepFail, stepProxyTimeout, stepAppendErr,
      hfc, hpt, her, excmBindOk, excmPure]

/-- Every outer `except` clause counts exactly one failure for the target,
touches neither the success counter nor the latency samples nor the base
headers, and leaves every other target's counters alone. -/
theorem outer_handler_spec (e : PyExc) (st : TesterState) (u : String) (pr : Bool)
    (h : ReadyAt st u) :
    ∃ st2, outer_handler e st u pr = .ok st2 ∧
      st2.success_count = st.success_count ∧
      st2.failure_count = dictSet st.failure_count u (getCnt st.failure_count u + 1) ∧
      st2.response_times = st.response_times ∧
      st2.headers = st.headers ∧
      ∀ v, v ≠ u →
        dictGet? st2.proxy_errors v = dictGet? st.proxy_errors v ∧
        dictGet? st2.proxy_timeouts v = dictGet? st.proxy_timeouts v ∧
        dictGet? st2.ssl_errors v = dictGet? st.ssl_errors v ∧
        dictGet? st2.errors v = dictGet? st.errors v := by
  obtain ⟨hrt, hsc, hfc, her, hpe, hpt, hse⟩ := h
  obtain ⟨fcv, hfc⟩ := Option.isSome_iff_exists.mp hfc
  obtain ⟨erv, her⟩ := Option.isSome_iff_exists.mp her
  obtain ⟨pev, hpe⟩ := Option.isSome_iff_exists.mp hpe
  obtain ⟨ptv, hpt⟩ := Option.isSome_iff_exists.mp hpt
  obtain ⟨sev, hse⟩ := Option.isSome_iff_exists.mp hse
  have gfc : getCnt st.failure_count u = fcv := by simp [getCnt, hfc]
  cases e <;>
    [skip; skip; skip; (cases pr); skip; skip; skip; skip; skip; skip] <;>
    (simp only [outer_handler, escape, stepFail, stepProxyErr, stepProxyTimeout,
      stepSslErr, stepAppendErr, hfc, her, hpe, hpt, hse, excmBindOk, excmPure,
      Bool.false_eq_true, if_true, if_false];
     exact ⟨_, rfl, rfl, by rw [gfc], rfl, rfl, fun v hv => by
       simp [dictGet?_set_ne _ _ _ _ hv]⟩)

/-- Under a live (non-cancelled) call with a selected target that already
carries a scheme — as every URL handed out by `URLManager` does — the
re-normalization inside `make_request` is the identity and the call reduces
to the guarded request on the lazily initialized state. -/
theorem make_request_eq (cfg : Config) (bc : String → Option String)
    (st0 : TesterState) (o : CallOracle) (u : String)
    (hc : o.cancelled = false) (ht : o.target = some u) (hs : hasScheme u = true) :
    make_request cfg bc st0 o =
      match try_body cfg bc (init_url_stats st0 u) u o.outcome with
      | .ok (st2, s) => .ok (st2, s)
      | .error (e, st2) =>
        match outer_handler e st2 u (proxiesOf cfg o).isSome with
        | .ok st3 => .ok (st3, 0)
        | .error st3 => .error st3 := by
  unfold make_request
  rw [hc, ht]
  simp only [Bool.false_eq_true, if_false, hs, if_true]

theorem try_body_response_eq (cfg : Config) (bc : String → Option String)
    (st : TesterState) (u : String)
    (status : Nat) (t : ℚ) (rts : List ℚ) (scv fcv : Nat) (erv : List String)
    (nl : String) (hok : pyNetloc bc u = .ok nl) (hn : nl ≠ "")
    (hrt : dictGet? st.response_times u = some rts)
    (hsc : dictGet? st.success_count u = some scv)
    (hfc : dictGet? st.failure_count u = some fcv)
    (her : dictGet? st.errors u = some erv) :
    try_body cfg bc st u (.response status t) = .ok
      ((if status = 200 then
          { st with
            response_times := dictSet st.response_times u (rts ++ [t])
            success_count := dictSet st.success_count u (scv + 1) }
        else
          { st with
            response_times := dictSet st.response_times u (rts ++ [t])
            failure_count := dictSet st.failure_count u (fcv + 1)
            errors := dictSet st.errors u (erv ++ ["状态码: " ++ toString status]) }),
       sleepOf cfg t) := by
  unfold try_body
  simp only [hok]
  rw [if_neg hn]
  exact handle_response_eq cfg st u status t rts scv fcv erv hrt hsc hfc her

theorem try_body_invalidURL_eq (cfg : Config) (bc : String → Option String)
    (st : TesterState) (u : String)
    (outcome : NetOutcome) (fcv : Nat) (erv : List String) (nl : String)
    (hok : pyNetloc bc u = .ok nl)
    (hfc : dictGet? st.failure_count u = some fcv)
    (her : dictGet? st.errors u = some erv)
    (hcase : nl = "" ∨ ∃ m, outcome = .invalidURL m) :
    try_body cfg bc st u outcome = .ok
      ({ st with
         failure_count := dictSet st.failure_count u (fcv + 1)
         errors := dictSet st.errors u (erv ++ ["无效的URL: " ++ u]) }, 0) := by
  have hinv := invalid_url_handler_eq st u fcv erv hfc her
  unfold try_body
  rcases hcase with hn | ⟨m, hm⟩
  · simp only [hok]
    rw [if_pos hn, hinv]
  · subst hm
    simp only [hok]
    by_cases hn : nl = ""
    · rw [if_pos hn, hinv]
    · rw [if_neg hn]
      simp [hinv]

/-- A `ValueError` raised by `urlparse` at line 286 is not an `InvalidURL`,
so it escapes the inner `try` (whatever the would-be network outcome). -/
theorem try_body_valueError_eq (cfg : Config) (bc : String → Option String)
    (st : TesterState) (u : String) (outcome : NetOutcome) (msg : String)
    (herr : pyNetloc bc u = .error msg) :
    try_body cfg bc st u outcome = .error (.valueError msg, st) := by
  unfold try_body
  simp only [herr]

theorem try_body_error_eq (cfg : Config) (bc : String → Option String)
    (st : TesterState) (u : String)
    (outcome : NetOutcome) (exc : PyExc) (nl : String)
    (hok : pyNetloc bc u = .ok nl) (hn : nl ≠ "")
    (hmap : (match outcome with
      | .proxyError m => some (PyExc.proxyError m)
      | .connectTimeout m => some (PyExc.connectTimeout m)
      | .sslError m => some (PyExc.sslError m)
      | .connectionError k m => some (PyExc.connectionError k m)
      | .readTimeout m => some (PyExc.readTimeout m)
      | .otherRequestError m => some (PyExc.otherRequestError m)
      | .otherError m => some (PyExc.otherError m)
      | _ => none) = some exc) :
    try_body cfg bc st u outcome = .error (exc, st) := by
  cases outcome <;> simp_all [try_body, hok]

theorem make_request_ok_of_try (cfg : Config) (bc : String → Option String)
    (st0 : TesterState) (o : CallOracle)
    (u : String) (st2 : TesterState) (s : ℚ)
    (hc : o.cancelled = false) (ht : o.target = some u) (hs : hasScheme u = true)
    (htb : try_body cfg bc (init_url_stats st0 u) u o.outcome = .ok (st2, s)) :
    make_request cfg bc st0 o = .ok (st2, s) := by
  unfold make_request
  rw [hc, ht]
  simp only [Bool.false_eq_true, if_false, hs, if_true, htb]

theorem make_request_handled (cfg : Config) (bc : String → Option String)
    (st0 : TesterState) (o : CallOracle)
    (u : String) (exc : PyExc) (st2 st3 : TesterState)
    (hc : o.cancelled = false) (ht : o.target = some u) (hs : hasScheme u = true)
    (htb : try_body cfg bc (init_url_stats st0 u) u o.outcome = .error (exc, st2))
    (hoh : outer_handler exc st2 u (proxiesOf cfg o).isSome = .ok st3) :
    make_request cfg bc st0 o = .ok (st3, 0) := by
  unfold make_request
  rw [hc, ht]
  simp only [Bool.false_eq_true, if_false, hs, if_true, htb, hoh]

/-- An exception escaping the inner `try` goes through the matching outer
`except` clause; combining `try_body` and `outer_handler` on the initialized
state. -/
theorem make_request_error_path (cfg : Config) (bc : String → Option String)
    (st0 : TesterState) (o : CallOracle)
    (u : String) (exc : PyExc)
    (hc : o.cancelled = false) (ht : o.target = some u) (hs : hasScheme u = true)
    (hready : ReadyAt (init_url_stats st0 u) u)
    (htb : try_body cfg bc (init_url_stats st0 u) u o.outcome
      = .error (exc, init_url_stats st0 u)) :
    ∃ st2, make_request cfg bc st0 o = .ok (st2, 0) ∧
      st2.success_count = (init_url_stats st0 u).success_count ∧
      st2.failure_count = dictSet (init_url_stats st0 u).failure_count u
        (getCnt (init_url_stats st0 u).failure_count u + 1) ∧
      st2.response_times = (init_url_stats st0 u).response_times ∧
      st2.headers = (init_url_stats st0 u).headers ∧
      ∀ v, v ≠ u →
        dictGet? st2.proxy_errors v = dictGet? (init_url_stats st0 u).proxy_errors v ∧
        dictGet? st2.proxy_timeouts v = dictGet? (init_url_stats st0 u).proxy_timeouts v ∧
        dictGet? st2.ssl_errors v = dictGet? (init_url_stats st0 u).ssl_errors v ∧
        dictGet? st2.errors v = dictGet? (init_url_stats st0 u).errors v := by
  obtain ⟨st2, hoh, h1, h2, h3, h4, h5⟩ :=
    outer_handler_spec exc (init_url_stats st0 u) u (proxiesOf cfg o).isSome hready
  exact ⟨st2, make_request_handled cfg bc st0 o u exc _ st2 hc ht hs htb hoh,
    h1, h2, h3, h4, h5⟩

/-- C1: every `make_request` call that proceeds past target selection (not
cancelled, a target URL was selected — such targets always carry a scheme)
increments exactly one of `success_count[target]`/`failure_count[target]`
exactly once on every outcome path (200 response, non-200 response,
invalid-URL rejection, and every exception handler), so the per-target
invariant `attempted = success_count + failure_count` is preserved; counters
of other targets are untouched. -/
theorem make_request_attempt_counts (cfg : Config) (bc : String → Option String)
    (st0 : TesterState) (o : CallOracle) (u : String)
    (hc : o.cancelled = false) (ht : o.target = some u)
    (hs : hasScheme u = true) (hw : WFat st0 u = true) :
    ∃ st2 sl, make_request cfg bc st0 o = .ok (st2, sl) ∧
      getCnt st2.success_count u + getCnt st2.failure_count u
        = getCnt st0.success_count u + getCnt st0.failure_count u + 1 ∧
      ∀ v, v ≠ u →
        getCnt st2.success_count v = getCnt st0.success_count v ∧
        getCnt st2.failure_count v = getCnt st0.failure_count v := by
  have hready2 := init_ready st0 u hw
  obtain ⟨c_sc, c_fc, c_pe, c_pt, c_se, c_rt, c_er⟩ := init_counts st0 u hw
  obtain ⟨irt, isc, ifc, ier, ipe, ipt, ise⟩ := init_ready st0 u hw
  obtain ⟨rts, hrt⟩ := Option.isSome_iff_exists.mp irt
  obtain ⟨scv, hsc⟩ := Option.isSome_iff_exists.mp isc
  obtain ⟨fcv, hfc⟩ := Option.isSome_iff_exists.mp ifc
  obtain ⟨erv, her⟩ := Option.isSome_iff_exists.mp ier
  have g_sc : getCnt (init_url_stats st0 u).success_count u = scv := by simp [getCnt, hsc]
  have g_fc : getCnt (init_url_stats st0 u).failure_count u = fcv := by simp [getCnt, hfc]
  have e_sc : getCnt st0.success_count u = scv := by rw [← c_sc]; exact g_sc
  have e_fc : getCnt st0.failure_count u = fcv := by rw [← c_fc]; exact g_fc
  have hframe : ∀ v, v ≠ u →
      getCnt (init_url_stats st0 u).success_count v = getCnt st0.success_count v ∧
      getCnt (init_url_stats st0 u).failure_count v = getCnt st0.failure_count v := by
    intro v hv
    obtain ⟨f1, f2, f3, f4, f5, f6, f7⟩ := init_frame st0 u v hv
    exact ⟨by simp [getCnt, f2], by simp [getCnt, f3]⟩
  cases hpz : pyNetloc bc u with
  | error msg =>
    obtain ⟨st2, hmr, h1, h2, h3, h4, h5⟩ := make_request_error_path cfg bc st0 o u _
      hc ht hs hready2
      (try_body_valueError_eq cfg bc (init_url_stats st0 u) u o.outcome msg hpz)
    refine ⟨st2, 0, hmr, ?_, ?_⟩
    · rw [h1, h2, getCnt_set_self, g_sc, g_fc, e_sc, e_fc]
      omega
    · intro v hv
      refine ⟨by rw [h1]; exact (hframe v hv).1, ?_⟩
      rw [h2, getCnt_set_ne _ _ _ _ hv]
      exact (hframe v hv).2
  | ok nl =>
  by_cases hn : nl = ""
  · have htb := try_body_invalidURL_eq cfg bc (init_url_stats st0 u) u o.outcome fcv erv
      nl hpz hfc her (Or.inl hn)
    refine ⟨_, _, make_request_ok_of_try cfg bc st0 o u _ _ hc ht hs htb, ?_, ?_⟩
    · simp only [getCnt_set_self, g_sc, e_sc, e_fc]
      omega
    · intro v hv
      refine ⟨(hframe v hv).1, ?_⟩
      simp only [getCnt_set_ne _ _ _ _ hv]
      exact (hframe v hv).2
  · cases ho : o.outcome with
    | response status t =>
      have htb := try_body_response_eq cfg bc (init_url_stats st0 u) u status t rts scv
        fcv erv nl hpz hn hrt hsc hfc her
      rw [← ho] at htb
      have hmr := make_request_ok_of_try cfg bc st0 o u _ _ hc ht hs htb
      by_cases hs200 : status = 200
      · rw [if_pos hs200] at hmr
        refine ⟨_, _, hmr, ?_, ?_⟩
        · simp only [getCnt_set_self, g_fc, e_sc, e_fc]
          omega
        · intro v hv
          refine ⟨?_, (hframe v hv).2⟩
          simp only [getCnt_set_ne _ _ _ _ hv]
          exact (hframe v hv).1
      · rw [if_neg hs200] at hmr
        refine ⟨_, _, hmr, ?_, ?_⟩
        · simp only [getCnt_set_self, g_sc, e_sc, e_fc]
          omega
        · intro v hv
          refine ⟨(hframe v hv).1, ?_⟩
          simp only [getCnt_set_ne _ _ _ _ hv]
          exact (hframe v hv).2
    | invalidURL m =>
      have htb := try_body_invalidURL_eq cfg bc (init_url_stats st0 u) u o.outcome fcv erv
        nl hpz hfc her (Or.inr ⟨m, ho⟩)
      refine ⟨_, _, make_request_ok_of_try cfg bc st0 o u _ _ hc ht hs htb, ?_, ?_⟩
      · simp only [getCnt_set_self, g_sc, e_sc, e_fc]
        omega
      · intro v hv
        refine ⟨(hframe v hv).1, ?_⟩
        simp only [getCnt_set_ne _ _ _ _ hv]
        exact (hframe v hv).2
    | proxyError m =>
      obtain ⟨st2, hmr, h1, h2, h3, h4, h5⟩ := make_request_error_path cfg bc st0 o u _
        hc ht hs hready2
        (try_body_error_eq cfg bc (init_url_stats st0 u) u o.outcome _ nl hpz hn (by rw [ho]))
      refine ⟨st2, 0, hmr, ?_, ?_⟩
      · rw [h1, h2, getCnt_set_self, g_sc, g_fc, e_sc, e_fc]
        omega
      · intro v hv
        refine ⟨by rw [h1]; exact (hframe v hv).1, ?_⟩
        rw [h2, getCnt_set_ne _ _ _ _ hv]
        exact (hframe v hv).2
    | connectTimeout m =>
      obtain ⟨st2, hmr, h1, h2, h3, h4, h5⟩ := make_request_error_path cfg bc st0 o u _
        hc ht hs hready2
        (try_body_error_eq cfg bc (init_url_stats st0 u) u o.outcome _ nl hpz hn (by rw [ho]))
      refine ⟨st2, 0, hmr, ?_, ?_⟩
      · rw [h1, h2, getCnt_set_self, g_sc, g_fc, e_sc, e_fc]
        omega
      · intro v hv
        refine ⟨by rw [h1]; exact (hframe v hv).1, ?_⟩
        rw [h2, getCnt_set_ne _ _ _ _ hv]
        exact (hframe v hv).2
    | sslError m =>
      obtain ⟨st2, hmr, h1, h2, h3, h4, h5⟩ := make_request_error_path cfg bc st0 o u _
        hc ht hs hready2
        (try_body_error_eq cfg bc (init_url_stats st0 u) u o.outcome _ nl hpz hn (by rw [ho]))
      refine ⟨st2, 0, hmr, ?_, ?_⟩
      · rw [h1, h2, getCnt_set_self, g_sc, g_fc, e_sc, e_fc]
        omega
      · intro v hv
        refine ⟨by rw [h1]; exact (hframe v hv).1, ?_⟩
        rw [h2, getCnt_set_ne _ _ _ _ hv]
        exact (hframe v hv).2
    | connectionError k m =>
      obtain ⟨st2, hmr, h1, h2, h3, h4, h5⟩ := make_request_error_path cfg bc st0 o u _
        hc ht hs hready2
        (try_body_error_eq cfg bc (init_url_stats st0 u) u o.outcome _ nl hpz hn (by rw [ho]))
      refine ⟨st2, 0, hmr, ?_, ?_⟩
      · rw [h1, h2, getCnt_set_self, g_sc, g_fc, e_sc, e_fc]
        omega
      · intro v hv
        refine ⟨by rw [h1]; exact (hframe v hv).1, ?_⟩
        rw [h2, getCnt_set_ne _ _ _ _ hv]
        exact (hframe v hv).2
    | readTimeout m =>
      obtain ⟨st2, hmr, h1, h2, h3, h4, h5⟩ := make_request_error_path cfg bc st0 o u _
        hc ht hs hready2
        (try_body_error_eq cfg bc (init_url_stats st0 u) u o.outcome _ nl hpz hn (by rw [ho]))
      refine ⟨st2, 0, hmr, ?_, ?_⟩
      · rw [h1, h2, getCnt_set_self, g_sc, g_fc, e_sc, e_fc]
        omega
      · intro v hv
        refine ⟨by rw [h1]; exact (hframe v hv).1, ?_⟩
        rw [h2, getCnt_set_ne _ _ _ _ hv]
        exact (hframe v hv).2
    | otherRequestError m =>
      obtain ⟨st2, hmr, h1, h2, h3, h4, h5⟩ := make_request_error_path cfg bc st0 o u _
        hc ht hs hready2
        (try_body_error_eq cfg bc (init_url_stats st0 u) u o.outcome _ nl hpz hn (by rw [ho]))
      refine ⟨st2, 0, hmr, ?_, ?_⟩
      · rw [h1, h2, getCnt_set_self, g_sc, g_fc, e_sc, e_fc]
        omega
      · intro v hv
        refine ⟨by rw [h1]; exact (hframe v hv).1, ?_⟩
        rw [h2, getCnt_set_ne _ _ _ _ hv]
        exact (hframe v hv).2
    | otherError m =>
      obtain ⟨st2, hmr, h1, h2, h3, h4, h5⟩ := make_request_error_path cfg bc st0 o u _
        hc ht hs hready2
        (try_body_error_eq cfg bc (init_url_stats st0 u) u o.outcome _ nl hpz hn (by rw [ho]))
      refine ⟨st2, 0, hmr, ?_, ?_⟩
      · rw [h1, h2, getCnt_set_self, g_sc, g_fc, e_sc, e_fc]
        omega
      · intro v hv
        refine ⟨by rw [h1]; exact (hframe v hv).1, ?_⟩
        rw [h2, getCnt_set_ne _ _ _ _ hv]
        exact (hframe v hv).2

theorem make_request_attempt_counts_witness :
    ∃ st2 sl,
      make_request sampleConfig noBracketCheck emptyState sampleOracle = .ok (st2, sl) ∧
      getCnt st2.success_count "https://a" + getCnt st2.failure_count "https://a"
        = getCnt emptyState.success_count "https://a"
          + getCnt emptyState.failure_count "https://a" + 1 := by
  obtain ⟨st2, sl, h1, h2, _⟩ := make_request_attempt_counts sampleConfig noBracketCheck
    emptyState sampleOracle "https://a" (by decide) (by decide) (by decide) (by decide)
  exact ⟨st2, sl, h1, h2⟩

/-- C3: when a response is obtained (the URL passed validation), one latency
sample is appended to the target's `response_times` and then status 200
increments `success_count` while any other status increments `failure_count`
(the latency sample is recorded in both cases); when the request fails at the
network layer (proxy error, connect timeout, SSL error, DNS
failure/refused/reset/other connection error, read timeout, other request
error), `failure_count` is incremented and no latency sample is recorded. -/
theorem outcome_classification (cfg : Config) (bc : String → Option String)
    (st0 : TesterState) (o : CallOracle) (u : String) (nl : String)
    (hc : o.cancelled = false) (ht : o.target = some u)
    (hs : hasScheme u = true) (hw : WFat st0 u = true)
    (hpz : pyNetloc bc u = .ok nl) (hn : nl ≠ "") :
    (∀ status t, o.outcome = .response status t →
      ∃ st2 sl, make_request cfg bc st0 o = .ok (st2, sl) ∧
        getTimes st2.response_times u = getTimes st0.response_times u ++ [t] ∧
        (status = 200 →
          getCnt st2.success_count u = getCnt st0.success_count u + 1 ∧
          getCnt st2.failure_count u = getCnt st0.failure_count u) ∧
        (status ≠ 200 →
          getCnt st2.failure_count u = getCnt st0.failure_count u + 1 ∧
          getCnt st2.success_count u = getCnt st0.success_count u)) ∧
    (isNetworkFailure o.outcome = true →
      ∃ st2, make_request cfg bc st0 o = .ok (st2, 0) ∧
        getCnt st2.failure_count u = getCnt st0.failure_count u + 1 ∧
        getCnt st2.success_count u = getCnt st0.success_count u ∧
        getTimes st2.response_times u = getTimes st0.response_times u) := by
  have hready2 := init_ready st0 u hw
  obtain ⟨c_sc, c_fc, c_pe, c_pt, c_se, c_rt, c_er⟩ := init_counts st0 u hw
  obtain ⟨irt, isc, ifc, ier, ipe, ipt, ise⟩ := init_ready st0 u hw
  obtain ⟨rts, hrt⟩ := Option.isSome_iff_exists.mp irt
  obtain ⟨scv, hsc⟩ := Option.isSome_iff_exists.mp isc
  obtain ⟨fcv, hfc⟩ := Option.isSome_iff_exists.mp ifc
  obtain ⟨erv, her⟩ := Option.isSome_iff_exists.mp ier
  have g_sc : getCnt (init_url_stats st0 u).success_count u = scv := by simp [getCnt, hsc]
  have g_fc : getCnt (init_url_stats st0 u).failure_count u = fcv := by simp [getCnt, hfc]
  have g_rt : getTimes (init_url_stats st0 u).response_times u = rts := by
    simp [getTimes, hrt]
  have e_sc : getCnt st0.success_count u = scv := by rw [← c_sc]; exact g_sc
  have e_fc : getCnt st0.failure_count u = fcv := by rw [← c_fc]; exact g_fc
  have e_rt : getTimes st0.response_times u = rts := by rw [← c_rt]; exact g_rt
  constructor
  · intro status t ho
    have htb := try_body_response_eq cfg bc (init_url_stats st0 u) u status t rts scv
      fcv erv nl hpz hn hrt hsc hfc her
    rw [← ho] at htb
    have hmr := make_request_ok_of_try cfg bc st0 o u _ _ hc ht hs htb
    by_cases hs200 : status = 200
    · rw [if_pos hs200] at hmr
      refine ⟨_, _, hmr, ?_, fun _ => ⟨?_, ?_⟩, fun hne => absurd hs200 hne⟩
      · simp only [getTimes_set_self, e_rt]
      · simp only [getCnt_set_self, e_sc]
      · simp only [g_fc, e_fc]
    · rw [if_neg hs200] at hmr
      refine ⟨_, _, hmr, ?_, fun heq => absurd heq hs200, fun _ => ⟨?_, ?_⟩⟩
      · simp only [getTimes_set_self, e_rt]
      · simp only [getCnt_set_self, e_fc]
      · simp only [g_sc, e_sc]
  · intro hnf
    cases ho : o.outcome
    case response status t => rw [ho] at hnf; simp [isNetworkFailure] at hnf
    case invalidURL m => rw [ho] at hnf; simp [isNetworkFailure] at hnf
    case otherError m => rw [ho] at hnf; simp [isNetworkFailure] at hnf
    all_goals (
      obtain ⟨st2, hmr, h1, h2, h3, h4, h5⟩ := make_request_error_path cfg bc st0 o u _
        hc ht hs hready2
        (try_body_error_eq cfg bc (init_url_stats st0 u) u o.outcome _ nl hpz hn
          (by rw [ho]));
      exact ⟨st2, hmr,
        by rw [h2, getCnt_set_self, g_fc, e_fc],
        by rw [h1, c_sc],
        by rw [h3, c_rt]⟩)

theorem outcome_classification_witness :
    ∃ st2 sl,
      make_request sampleConfig noBracketCheck emptyState sampleOracle = .ok (st2, sl) ∧
      getTimes st2.response_times "https://a"
        = getTimes emptyState.response_times "https://a" ++ [1] := by
  obtain ⟨hresp, _⟩ := outcome_classification sampleConfig noBracketCheck emptyState
    sampleOracle "https://a" "a" (by decide) (by decide) (by decide) (by decide)
    rfl (by decide)
  obtain ⟨st2, sl, h1, h2, _⟩ := hresp 200 1 rfl
  exact ⟨st2, sl, h1, h2⟩

/-- C4: a connect-timeout exception increments `failure_count[target]` and
appends the timeout message, and increments `proxy_timeouts[target]` if and
only if a proxy dictionary was actually obtained for the attempt; with no
proxy obtained the timeout is counted only as a generic connect-timeout
failure. -/
theorem connect_timeout_accounting (cfg : Config) (bc : String → Option String)
    (st0 : TesterState) (o : CallOracle)
    (u msg nl : String)
    (hc : o.cancelled = false) (ht : o.target = some u)
    (hs : hasScheme u = true) (hw : WFat st0 u = true)
    (hpz : pyNetloc bc u = .ok nl) (hn : nl ≠ "")
    (ho : o.outcome = .connectTimeout msg) :
    ∃ st2, make_request cfg bc st0 o = .ok (st2, 0) ∧
      getCnt st2.failure_count u = getCnt st0.failure_count u + 1 ∧
      getErrs st2.errors u = getErrs st0.errors u ++ ["连接超时: " ++ msg] ∧
      getCnt st2.proxy_timeouts u = getCnt st0.proxy_timeouts u +
        (if (proxiesOf cfg o).isSome then 1 else 0) := by
  obtain ⟨c_sc, c_fc, c_pe, c_pt, c_se, c_rt, c_er⟩ := init_counts st0 u hw
  obtain ⟨irt, isc, ifc, ier, ipe, ipt, ise⟩ := init_ready st0 u hw
  obtain ⟨fcv, hfc⟩ := Option.isSome_iff_exists.mp ifc
  obtain ⟨erv, her⟩ := Option.isSome_iff_exists.mp ier
  obtain ⟨ptv, hpt⟩ := Option.isSome_iff_exists.mp ipt
  have g_fc : getCnt (init_url_stats st0 u).failure_count u = fcv := by simp [getCnt, hfc]
  have g_pt : getCnt (init_url_stats st0 u).proxy_timeouts u = ptv := by simp [getCnt, hpt]
  have g_er : getErrs (init_url_stats st0 u).errors u = erv := by simp [getErrs, her]
  have e_fc : getCnt st0.failure_count u = fcv := by rw [← c_fc]; exact g_fc
  have e_pt : getCnt st0.proxy_timeouts u = ptv := by rw [← c_pt]; exact g_pt
  have e_er : getErrs st0.errors u = erv := by rw [← c_er]; exact g_er
  have hct := outer_handler_connectTimeout_eq (init_url_stats st0 u) u msg
    (proxiesOf cfg o).isSome fcv ptv erv hfc hpt her
  have htb := try_body_error_eq cfg bc (init_url_stats st0 u) u o.outcome
    (.connectTimeout msg) nl hpz hn (by rw [ho])
  have hmr := make_request_handled cfg bc st0 o u _ _ _ hc ht hs htb hct
  refine ⟨_, hmr, ?_, ?_, ?_⟩
  · simp only [getCnt_set_self, e_fc]
  · simp only [getErrs_set_self, e_er]
  · cases hpr : (proxiesOf cfg o).isSome
    · simp only [hpr, Bool.false_eq_true, if_false, g_pt, e_pt, Nat.add_zero]
    · simp only [hpr, if_true, getCnt_set_self, e_pt]

theorem connect_timeout_accounting_witness :
    ∃ st2,
      make_request sampleConfig noBracketCheck emptyState
        { sampleOracle with outcome := .connectTimeout "t" } = .ok (st2, 0) ∧
      getCnt st2.failure_count "https://a"
        = getCnt emptyState.failure_count "https://a" + 1 ∧
      getErrs st2.errors "https://a"
        = getErrs emptyState.errors "https://a" ++ ["连接超时: t"] := by
  obtain ⟨st2, h1, h2, h3, _⟩ := connect_timeout_accounting sampleConfig noBracketCheck
    emptyState { sampleOracle with outcome := .connectTimeout "t" } "https://a" "t" "a"
    (by decide) (by decide) (by decide) (by decide) rfl (by decide) rfl
  exact ⟨st2, h1, h2, h3⟩

/-- C9: when a requests-per-second ceiling `r` is configured (so
`request_interval = 1 / r` by `mkInterval`), a worker that obtained a
response sleeps `max 0 (1/r − elapsed)` before returning; with no ceiling
configured (`request_interval = mkInterval none = None`) no post-request
sleep occurs. -/
theorem rate_limit_sleep (cfg : Config) (bc : String → Option String)
    (st0 : TesterState) (o : CallOracle)
    (u nl : String) (r : ℚ) (status : Nat) (t : ℚ)
    (hc : o.cancelled = false) (ht : o.target = some u)
    (hs : hasScheme u = true) (hw : WFat st0 u = true)
    (hpz : pyNetloc bc u = .ok nl) (hn : nl ≠ "")
    (ho : o.outcome = .response status t) :
    (cfg.request_interval = mkInterval (some r) → 0 < r →
      ∃ st2, make_request cfg bc st0 o = .ok (st2, max 0 (1 / r - t))) ∧
    (cfg.request_interval = mkInterval none →
      ∃ st2, make_request cfg bc st0 o = .ok (st2, 0)) := by
  obtain ⟨irt, isc, ifc, ier, ipe, ipt, ise⟩ := init_ready st0 u hw
  obtain ⟨rts, hrt⟩ := Option.isSome_iff_exists.mp irt
  obtain ⟨scv, hsc⟩ := Option.isSome_iff_exists.mp isc
  obtain ⟨fcv, hfc⟩ := Option.isSome_iff_exists.mp ifc
  obtain ⟨erv, her⟩ := Option.isSome_iff_exists.mp ier
  have htb := try_body_response_eq cfg bc (init_url_stats st0 u) u status t rts scv
    fcv erv nl hpz hn hrt hsc hfc her
  rw [← ho] at htb
  have hmr := make_request_ok_of_try cfg bc st0 o u _ _ hc ht hs htb
  constructor
  · intro hci hr
    have hiv : cfg.request_interval = some (1 / r) := by
      rw [hci]
      simp [mkInterval, ne_of_gt hr]
    have hsleep : sleepOf cfg t = max 0 (1 / r - t) := by
      have h1r : (1 : ℚ) / r ≠ 0 := one_div_ne_zero (ne_of_gt hr)
      simp only [sleepOf, hiv, h1r, if_true, ne_eq, not_false_iff]
      by_cases hgt : 1 / r - t > 0
      · rw [if_pos hgt, max_eq_right hgt.le]
      · rw [if_neg hgt, max_eq_left (le_of_not_lt hgt)]
    exact ⟨_, by rw [hmr, hsleep]⟩
  · intro hci
    have hsleep : sleepOf cfg t = 0 := by
      simp only [sleepOf, mkInterval] at hci ⊢
      rw [hci]
    exact ⟨_, by rw [hmr, hsleep]⟩

theorem rate_limit_sleep_witness :
    ∃ st2,
      make_request { sampleConfig with request_interval := mkInterval (some 2) }
        noBracketCheck emptyState sampleOracle = .ok (st2, max 0 (1 / 2 - 1)) := by
  obtain ⟨hrl, _⟩ := rate_limit_sleep
    { sampleConfig with request_interval := mkInterval (some 2) } noBracketCheck
    emptyState sampleOracle "https://a" "a" 2 200 1
    (by decide) (by decide) (by decide) (by decide) rfl (by decide) rfl
  exact hrl rfl (by norm_num)

theorem submitFrom_length_le (cancel : Nat → Bool) :
    ∀ (fuel i m : Nat), cancel (i + m) = true →
      (submitFrom cancel i fuel).length ≤ m := by
  intro fuel
  induction fuel with
  | zero => intro i m _; simp [submitFrom]
  | succ n ih =>
    intro i m h
    by_cases hci : cancel i = true
    · simp [submitFrom, hci]
    · cases m with
      | zero => rw [Nat.add_zero] at h; exact absurd h hci
      | succ m2 =>
        have h2 : cancel ((i + 1) + m2) = true := by
          rw [show (i + 1) + m2 = i + (m2 + 1) by omega]
          exact h
        have h3 := ih (i + 1) m2 h2
        have hci2 : cancel i = false := Bool.eq_false_iff.mpr hci
        simp only [submitFrom, hci2, Bool.false_eq_true, if_false, List.length_cons]
        omega

theorem submitFrom_not_cancelled (cancel : Nat → Bool) :
    ∀ (fuel i j : Nat), j ∈ submitFrom cancel i fuel → cancel j = false := by
  intro fuel
  induction fuel with
  | zero => intro i j h; simp [submitFrom] at h
  | succ n ih =>
    intro i j h
    by_cases hci : cancel i = true
    · simp [submitFrom, hci] at h
    · have hci2 : cancel i = false := Bool.eq_false_iff.mpr hci
      simp only [submitFrom, hci2, Bool.false_eq_true, if_false, List.mem_cons] at h
      rcases h with h | h
      · subst h
        exact Bool.eq_false_iff.mpr hci
      · exact ih (i + 1) j h

/-- C2: with a monotone cancellation flag that reads `True` from poll `k`
on (`k < num_requests`), the submission loop of `run` — which polls the flag
before every submission — submits at most `k` tasks, each submitted task was
submitted while the flag still read `False` (submitted tasks are then all
drained to completion by `run`, never aborted), and `run_load_test` reports
`cancelled`, not `completed`, whatever the outcomes of the submitted tasks. -/
theorem cancellation_stops_submission (cfg : Config) (bc : String → Option String)
    (st : TesterState)
    (cancel : Nat → Bool) (oracles : Nat → CallOracle) (k : Nat)
    (hmono : ∀ i j, i ≤ j → cancel i = true → cancel j = true)
    (hk : cancel k = true) (hlt : k < cfg.num_requests) :
    (submitFrom cancel 0 cfg.num_requests).length ≤ k ∧
    (∀ i, i ∈ submitFrom cancel 0 cfg.num_requests → cancel i = false) ∧
    (run_load_test cfg bc st cancel oracles).2 = RunStatus.cancelled := by
  refine ⟨?_, ?_, ?_⟩
  · exact submitFrom_length_le cancel cfg.num_requests 0 k (by simpa using hk)
  · intro i hi
    exact submitFrom_not_cancelled cancel cfg.num_requests 0 i hi
  · have hN : cancel cfg.num_requests = true :=
      hmono k cfg.num_requests (le_of_lt hlt) hk
    simp [run_load_test, hN]

theorem cancellation_stops_submission_witness :
    (submitFrom (fun _ => true) 0 sampleConfig.num_requests).length ≤ 0 ∧
    (run_load_test sampleConfig noBracketCheck emptyState (fun _ => true)
      (fun _ => sampleOracle)).2 = RunStatus.cancelled := by
  obtain ⟨h1, _, h3⟩ := cancellation_stops_submission sampleConfig noBracketCheck
    emptyState (fun _ => true) (fun _ => sampleOracle) 0 (fun _ _ _ h => h) rfl (by decide)
  exact ⟨h1, h3⟩

theorem mem_processFileLines (bc : String → Option String) (v : String) :
    ∀ lines : List String, v ∈ processFileLines bc lines →
      ∃ c, process_url bc c = some v := by
  intro lines
  induction lines with
  | nil => intro h; simp [processFileLines] at h
  | cons l rest ih =>
    intro hv
    simp only [processFileLines] at hv
    split at hv
    · cases hpu : process_url bc (strTrim l) with
      | some p =>
        rw [hpu] at hv
        rcases List.mem_cons.mp hv with h | h
        · subst h
          exact ⟨strTrim l, hpu⟩
        · exact ih h
      | none =>
        rw [hpu] at hv
        exact ih hv
    · exact ih hv

theorem mem_urlmanager_urls (bc : String → Option String) (singleUrl : Option String)
    (fileLines : Option (List String))
    (v : String) (hv : v ∈ urlmanager_urls bc singleUrl fileLines) :
    ∃ c, process_url bc c = some v := by
  unfold urlmanager_urls at hv
  cases singleUrl with
  | none =>
    cases fileLines with
    | none => simp at hv
    | some lines =>
      simp at hv
      exact mem_processFileLines bc v lines hv
  | some u =>
    by_cases hu : u = ""
    · cases fileLines with
      | none => simp [hu] at hv
      | some lines =>
        simp [hu] at hv
        exact mem_processFileLines bc v lines hv
    · cases hpu : process_url bc u with
      | some p =>
        cases fileLines with
        | none =>
          simp [hu, hpu] at hv
          subst hv
          exact ⟨u, hpu⟩
        | some lines =>
          simp [hu, hpu] at hv
          rcases hv with hv | hv
          · subst hv
            exact ⟨u, hpu⟩
          · exact mem_processFileLines bc v lines hv
      | none =>
        cases fileLines with
        | none => simp [hu, hpu] at hv
        | some lines =>
          simp [hu, hpu] at hv
          exact mem_processFileLines bc v lines hv

/-- C5: normalization prepends `https://` exactly when the candidate does not
already carry an `http://`/`https://` scheme prefix (a candidate that does is
left unchanged); the normalized candidate is accepted exactly when `urlparse`
succeeds on it with a non-empty netloc — a `ValueError` from `urlparse`
(bracketed-host rejection, abstracted by `bc`) drops the candidate; and
everything in the selectable set built by `URLManager` is an accepted
normalization of some candidate (rejected candidates never appear). -/
theorem process_url_normalization :
    (∀ (bc : String → Option String) (url : String), url ≠ "" → hasScheme url = true →
      ∀ w, process_url bc url = some w ↔
        (w = url ∧ ∃ nl, pyNetloc bc url = Except.ok nl ∧ nl ≠ "")) ∧
    (∀ (bc : String → Option String) (url : String), url ≠ "" → hasScheme url = false →
      ∀ w, process_url bc url = some w ↔
        (w = "https://" ++ url ∧
          ∃ nl, pyNetloc bc ("https://" ++ url) = Except.ok nl ∧ nl ≠ "")) ∧
    (∀ (bc : String → Option String) (singleUrl : Option String)
        (fileLines : Option (List String)) (v : String),
      v ∈ urlmanager_urls bc singleUrl fileLines → ∃ c, process_url bc c = some v) := by
  have key : ∀ (bc : String → Option String) (url url2 : String), url ≠ "" →
      (if hasScheme url then url else "https://" ++ url) = url2 →
      ∀ w, process_url bc url = some w ↔
        (w = url2 ∧ ∃ nl, pyNetloc bc url2 = Except.ok nl ∧ nl ≠ "") := by
    intro bc url url2 hne hnorm w
    have hpu : process_url bc url =
        match pyNetloc bc url2 with
        | .ok nl => if nl ≠ "" then some url2 else none
        | .error _ => none := by
      unfold process_url
      rw [if_neg hne, hnorm]
    rcases hpz : pyNetloc bc url2 with msg | nl
    · simp only [hpz] at hpu
      rw [hpu]
      constructor
      · intro hw
        exact Option.noConfusion hw
      · rintro ⟨-, nl2, hnl2, -⟩
        exact Except.noConfusion hnl2
    · simp only [hpz] at hpu
      by_cases hnl : nl = ""
      · rw [if_neg (not_not.mpr hnl)] at hpu
        rw [hpu]
        constructor
        · intro hw
          exact Option.noConfusion hw
        · rintro ⟨-, nl2, hnl2, hne2⟩
          injection hnl2 with h
          exact absurd (h ▸ hnl) hne2
      · rw [if_pos hnl] at hpu
        rw [hpu]
        constructor
        · intro hw
          injection hw with h
          exact ⟨h.symm, nl, rfl, hnl⟩
        · rintro ⟨hw, -⟩
          rw [hw]
  refine ⟨?_, ?_, ?_⟩
  · intro bc url hne h w
    exact key bc url url hne (by rw [h]; rfl) w
  · intro bc url hne h w
    exact key bc url ("https://" ++ url) hne (by rw [h]; rfl) w
  · intro bc singleUrl fileLines v hv
    exact mem_urlmanager_urls bc singleUrl fileLines v hv

theorem process_url_normalization_witness :
    process_url noBracketCheck "http://[abc" = none ∧
    process_url noBracketCheck "example.com" = some "https://example.com" := by
  obtain ⟨h1, h2, _⟩ := process_url_normalization
  constructor
  · cases hpz : process_url noBracketCheck "http://[abc" with
    | none => rfl
    | some w =>
      obtain ⟨_, nl, hnl, _⟩ :=
        (h1 noBracketCheck "http://[abc" (by decide) (by decide) w).mp hpz
      rw [show pyNetloc noBracketCheck "http://[abc" = Except.error "Invalid IPv6 URL"
        from rfl] at hnl
      cases hnl
  · exact (h2 noBracketCheck "example.com" (by decide) (by decide)
      "https://example.com").mpr ⟨rfl, "example.com", rfl, by decide⟩

/-- C6: the selector built from the single candidate `example.com` holds
exactly the accepted target `https://example.com` (whatever the
interpreter's bracketed-host validator, since the candidate has no
brackets), every `get_random_url` draw returns it, and a selector with an
empty accepted set returns `None`. -/
theorem target_selector_behavior :
    (∀ bc : String → Option String,
      urlmanager_urls bc (some "example.com") none = ["https://example.com"]) ∧
    (∀ (bc : String → Option String) (i : Nat),
      get_random_url (urlmanager_urls bc (some "example.com") none) i
        = some "https://example.com") ∧
    (∀ (bc : String → Option String) (i : Nat),
      get_random_url (urlmanager_urls bc none none) i = none) := by
  have h1 : ∀ bc : String → Option String,
      urlmanager_urls bc (some "example.com") none = ["https://example.com"] := by
    intro bc
    rfl
  refine ⟨h1, ?_, ?_⟩
  · intro bc i
    rw [h1 bc]
    simp [get_random_url, Nat.mod_one]
  · intro bc i
    rfl

theorem chooseStr_mem (l : List String) (i : Nat) (h : l ≠ []) : chooseStr l i ∈ l := by
  unfold chooseStr
  have hlen : i % l.length < l.length := Nat.mod_lt _ (List.length_pos.mpr h)
  rw [List.getD_eq_getElem l "" hlen]
  exact List.getElem_mem hlen

/-- C7: `get_random_proxy`: an explicit scheme with a non-empty pool returns
a pool entry wrapped with the `http://` (resp. `socks5h://`) prefix; with no
scheme it recurses on a scheme drawn from exactly the schemes whose pools are
non-empty; with both pools empty, or with the requested scheme's pool empty
(in particular `http` requested while only SOCKS5 entries are loaded), it
returns no proxy. -/
theorem get_random_proxy_selection :
    (∀ hp sp : List String, ∀ pick tIdx : Nat, hp ≠ [] →
      ∃ p ∈ hp, get_random_proxy hp sp (some "http") pick tIdx
        = some { http := "http://" ++ p, https := "http://" ++ p }) ∧
    (∀ hp sp : List String, ∀ pick tIdx : Nat, sp ≠ [] →
      ∃ p ∈ sp, get_random_proxy hp sp (some "socks5") pick tIdx
        = some { http := "socks5h://" ++ p, https := "socks5h://" ++ p }) ∧
    (∀ hp sp : List String, ∀ pick tIdx : Nat, hp ≠ [] ∨ sp ≠ [] →
      chooseStr (availableTypes hp sp) tIdx ∈ availableTypes hp sp ∧
      (∀ t, t ∈ availableTypes hp sp ↔ ((t = "http" ∧ hp ≠ []) ∨ (t = "socks5" ∧ sp ≠ []))) ∧
      get_random_proxy hp sp none pick tIdx
        = get_random_proxy_typed hp sp (chooseStr (availableTypes hp sp) tIdx) pick) ∧
    (∀ pt : Option String, ∀ pick tIdx : Nat,
      get_random_proxy [] [] pt pick tIdx = none) ∧
    (∀ sp : List String, ∀ pick tIdx : Nat,
      get_random_proxy [] sp (some "http") pick tIdx = none) := by
  refine ⟨?_, ?_, ?_, ?_, ?_⟩
  · intro hp sp pick tIdx h
    exact ⟨chooseStr hp pick, chooseStr_mem hp pick h,
      by simp [get_random_proxy, h]⟩
  · intro hp sp pick tIdx h
    refine ⟨chooseStr sp pick, chooseStr_mem sp pick h, ?_⟩
    simp [get_random_proxy, h]
  · intro hp sp pick tIdx h
    have havail : availableTypes hp sp ≠ [] := by
      rcases h with h | h <;> simp [availableTypes, h]
    refine ⟨chooseStr_mem _ tIdx havail, ?_, ?_⟩
    · intro t
      by_cases h1 : hp = [] <;> by_cases h2 : sp = [] <;>
        simp [availableTypes, h1, h2]
    · simp [get_random_proxy, optFalsy, h, havail]
  · intro pt pick tIdx
    simp [get_random_proxy]
  · intro sp pick tIdx
    simp [get_random_proxy, optFalsy]

theorem get_random_proxy_selection_witness :
    get_random_proxy [] ["s1:1080"] (some "http") 0 0 = none ∧
    ∃ p ∈ ["s1:1080"], get_random_proxy [] ["s1:1080"] (some "socks5") 0 0
      = some { http := "socks5h://" ++ p, https := "socks5h://" ++ p } := by
  obtain ⟨_, h2, _, _, h5⟩ := get_random_proxy_selection
  exact ⟨h5 ["s1:1080"] 0 0, h2 [] ["s1:1080"] 0 0 (by decide)⟩

theorem excmBindErr {α β : Type} (e : PyExc × TesterState) (f : α → ExcM β) :
    (Except.error e >>= f : ExcM β) = Except.error e := rfl

theorem excm_bind_hd (h0 : Dict String) (m : ExcM TesterState)
    (f : TesterState → ExcM TesterState)
    (hm : (prjS m).headers = h0)
    (hf : ∀ s1, s1.headers = h0 → (prjS (f s1)).headers = h0) :
    (prjS (m >>= f)).headers = h0 := by
  cases m with
  | ok s1 => exact hf s1 hm
  | error p => exact hm

theorem excm_bind_hdP (h0 : Dict String) (m : ExcM TesterState)
    (f : TesterState → ExcM (TesterState × ℚ))
    (hm : (prjS m).headers = h0)
    (hf : ∀ s1, s1.headers = h0 → (prjP (f s1)).headers = h0) :
    (prjP (m >>= f)).headers = h0 := by
  cases m with
  | ok s1 => exact hf s1 hm
  | error p => exact hm

theorem stepFail_hd (st : TesterState) (u : String) :
    (prjS (stepFail st u)).headers = st.headers := by
  unfold stepFail
  cases dictGet? st.failure_count u <;> rfl

theorem stepSucc_hd (st : TesterState) (u : String) :
    (prjS (stepSucc st u)).headers = st.headers := by
  unfold stepSucc
  cases dictGet? st.success_count u <;> rfl

theorem stepProxyErr_hd (st : TesterState) (u : String) :
    (prjS (stepProxyErr st u)).headers = st.headers := by
  unfold stepProxyErr
  cases dictGet? st.proxy_errors u <;> rfl

theorem stepProxyTimeout_hd (st : TesterState) (u : String) :
    (prjS (stepProxyTimeout st u)).headers = st.headers := by
  unfold stepProxyTimeout
  cases dictGet? st.proxy_timeouts u <;> rfl

theorem stepSslErr_hd (st : TesterState) (u : String) :
    (prjS (stepSslErr st u)).headers = st.headers := by
  unfold stepSslErr
  cases dictGet? st.ssl_errors u <;> rfl

theorem stepAppendErr_hd (st : TesterState) (u msg : String) :
    (prjS (stepAppendErr st u msg)).headers = st.headers := by
  unfold stepAppendErr
  cases dictGet? st.errors u <;> rfl

theorem stepAppendTime_hd (st : TesterState) (u : String) (t : ℚ) :
    (prjS (stepAppendTime st u t)).headers = st.headers := by
  unfold stepAppendTime
  cases dictGet? st.response_times u <;> rfl

theorem invalid_url_handler_hd (st : TesterState) (u : String) :
    (prjS (invalid_url_handler st u)).headers = st.headers := by
  unfold invalid_url_handler
  exact excm_bind_hd st.headers _ _ (stepFail_hd st u)
    (fun s1 h1 => (stepAppendErr_hd s1 u _).trans h1)

theorem handle_response_hd (cfg : Config) (st : TesterState) (u : String)
    (status : Nat) (t : ℚ) :
    (prjP (handle_response cfg st u status t)).headers = st.headers := by
  unfold handle_response
  refine excm_bind_hdP st.headers _ _ (stepAppendTime_hd st u t) ?_
  intro s1 h1
  by_cases hs : status = 200
  · rw [if_pos hs]
    refine excm_bind_hdP st.headers _ _ ((stepSucc_hd s1 u).trans h1) ?_
    intro s2 h2
    exact h2
  · rw [if_neg hs]
    refine excm_bind_hdP st.headers _ _ ((stepFail_hd s1 u).trans h1) ?_
    intro s2 h2
    refine excm_bind_hdP st.headers _ _ ((stepAppendErr_hd s2 u _).trans h2) ?_
    intro s3 h3
    exact h3

theorem try_body_hd (cfg : Config) (bc : String → Option String) (st : TesterState)
    (u2 : String) (outcome : NetOutcome) :
    (prjP (try_body cfg bc st u2 outcome)).headers = st.headers := by
  have hinv : (prjP (match invalid_url_handler st u2 with
      | .ok st2 => (.ok (st2, 0) : ExcM (TesterState × ℚ))
      | .error e => .error e)).headers = st.headers := by
    have h := invalid_url_handler_hd st u2
    cases hih : invalid_url_handler st u2 with
    | ok s2 => rw [hih] at h; exact h
    | error p => obtain ⟨e, s2⟩ := p; rw [hih] at h; exact h
  unfold try_body
  cases pyNetloc bc u2 with
  | error msg => rfl
  | ok nl =>
    dsimp only
    split
    · exact hinv
    · cases outcome with
      | response status t => exact handle_response_hd cfg st u2 status t
      | invalidURL m => exact hinv
      | proxyError m => rfl
      | connectTimeout m => rfl
      | sslError m => rfl
      | connectionError k m => rfl
      | readTimeout m => rfl
      | otherRequestError m => rfl
      | otherError m => rfl

theorem escape_hd (h0 : Dict String) (m : ExcM TesterState)
    (hm : (prjS m).headers = h0) : (prjE (escape m)).headers = h0 := by
  cases m with
  | ok s => exact hm
  | error p => obtain ⟨e, s⟩ := p; exact hm

theorem outer_handler_hd (e : PyExc) (st : TesterState) (u : String) (pr : Bool) :
    (prjE (outer_handler e st u pr)).headers = st.headers := by
  cases e with
  | proxyError msg =>
    refine escape_hd st.headers _ (excm_bind_hd st.headers _ _ (stepFail_hd st u) ?_)
    intro s1 h1
    refine excm_bind_hd st.headers _ _ ((stepProxyErr_hd s1 u).trans h1) ?_
    intro s2 h2
    exact (stepAppendErr_hd s2 u _).trans h2
  | connectTimeout msg =>
    refine escape_hd st.headers _ (excm_bind_hd st.headers _ _ (stepFail_hd st u) ?_)
    intro s1 h1
    cases pr with
    | true =>
      exact excm_bind_hd st.headers _ _ ((stepProxyTimeout_hd s1 u).trans h1)
        (fun s2 h2 => (stepAppendErr_hd s2 u _).trans h2)
    | false =>
      exact excm_bind_hd st.headers _ _ h1
        (fun s2 h2 => (stepAppendErr_hd s2 u _).trans h2)
  | sslError msg =>
    refine escape_hd st.headers _ (excm_bind_hd st.headers _ _ (stepFail_hd st u) ?_)
    intro s1 h1
    refine excm_bind_hd st.headers _ _ ((stepSslErr_hd s1 u).trans h1) ?_
    intro s2 h2
    exact (stepAppendErr_hd s2 u _).trans h2
  | connectionError k msg =>
    refine escape_hd st.headers _ (excm_bind_hd st.headers _ _ (stepFail_hd st u) ?_)
    intro s1 h1
    exact (stepAppendErr_hd s1 u _).trans h1
  | readTimeout msg =>
    refine escape_hd st.headers _ (excm_bind_hd st.headers _ _ (stepFail_hd st u) ?_)
    intro s1 h1
    exact (stepAppendErr_hd s1 u _).trans h1
  | invalidURL msg =>
    refine escape_hd st.headers _ (excm_bind_hd st.headers _ _ (stepFail_hd st u) ?_)
    intro s1 h1
    exact (stepAppendErr_hd s1 u _).trans h1
  | otherRequestError msg =>
    refine escape_hd st.headers _ (excm_bind_hd st.headers _ _ (stepFail_hd st u) ?_)
    intro s1 h1
    exact (stepAppendErr_hd s1 u _).trans h1
  | keyError k =>
    refine escape_hd st.headers _ (excm_bind_hd st.headers _ _ (stepFail_hd st u) ?_)
    intro s1 h1
    exact (stepAppendErr_hd s1 u _).trans h1
  | valueError msg =>
    refine escape_hd st.headers _ (excm_bind_hd st.headers _ _ (stepFail_hd st u) ?_)
    intro s1 h1
    exact (stepAppendErr_hd s1 u _).trans h1
  | otherError msg =>
    refine escape_hd st.headers _ (excm_bind_hd st.headers _ _ (stepFail_hd st u) ?_)
    intro s1 h1
    exact (stepAppendErr_hd s1 u _).trans h1

theorem make_request_hd (cfg : Config) (bc : String → Option String)
    (st0 : TesterState) (o : CallOracle) :
    headersOfResult (make_request cfg bc st0 o) = st0.headers := by
  unfold make_request
  split
  · rfl
  · cases o.target with
    | none => rfl
    | some u =>
      dsimp only
      have hinit := init_headers st0 u
      have htb := try_body_hd cfg bc (init_url_stats st0 u)
        (if hasScheme u = true then u else "https://" ++ u) o.outcome
      cases htbe : try_body cfg bc (init_url_stats st0 u)
          (if hasScheme u = true then u else "https://" ++ u) o.outcome with
      | ok p =>
        obtain ⟨s2, q⟩ := p
        rw [htbe] at htb
        exact htb.trans hinit
      | error p =>
        obtain ⟨e, s2⟩ := p
        rw [htbe] at htb
        have hoh := outer_handler_hd e s2
          (if hasScheme u = true then u else "https://" ++ u) (proxiesOf cfg o).isSome
        dsimp only
        cases hohe : outer_handler e s2
            (if hasScheme u = true then u else "https://" ++ u)
            (proxiesOf cfg o).isSome with
        | ok s3 =>
          rw [hohe] at hoh
          exact (hoh.trans htb).trans hinit
        | error s3 =>
          rw [hohe] at hoh
          exact (hoh.trans htb).trans hinit

theorem runTasks_hd (cfg : Config) (bc : String → Option String)
    (oracles : Nat → CallOracle) :
    ∀ (idxs : List Nat) (st : TesterState),
      (runTasks cfg bc st oracles idxs).headers = st.headers := by
  intro idxs
  induction idxs with
  | nil => intro st; rfl
  | cons i rest ih =>
    intro st
    have hmr := make_request_hd cfg bc st (oracles i)
    unfold runTasks
    simp only [List.foldl_cons]
    have hstep : (match make_request cfg bc st (oracles i) with
        | .ok (s2, _) => s2
        | .error s2 => s2).headers = st.headers := by
      cases hm : make_request cfg bc st (oracles i) with
      | ok p => obtain ⟨s2, q⟩ := p; rw [hm] at hmr; exact hmr
      | error s2 => rw [hm] at hmr; exact hmr
    have := ih (match make_request cfg bc st (oracles i) with
        | .ok (s2, _) => s2
        | .error s2 => s2)
    unfold runTasks at this
    exact this.trans hstep

/-- C10: building the per-request header set never mutates the stored base
headers: `get_request_headers` is computed from a copy of `self.headers`, so
the state left behind by any single `make_request` call — on a normal return
or an escaped exception — and by a whole `run` carries the base headers
unchanged, for every configuration, oracle and cancellation pattern. -/
theorem headers_not_mutated (cfg : Config) (bc : String → Option String)
    (st : TesterState) (o : CallOracle)
    (cancel : Nat → Bool) (oracles : Nat → CallOracle) :
    headersOfResult (make_request cfg bc st o) = st.headers ∧
    (LoadTester_run cfg bc st cancel oracles).headers = st.headers := by
  exact ⟨make_request_hd cfg bc st o,
    runTasks_hd cfg bc oracles (submitFrom cancel 0 cfg.num_requests) st⟩

theorem report_entries_spec (stdevFn : List ℚ → ℚ) (tt : ℚ) (st : TesterState) :
    ∀ l : List (String × List ℚ),
      (∀ p, p ∈ l →
        (dictGet? st.success_count p.1).isSome = true ∧
        (dictGet? st.failure_count p.1).isSome = true ∧
        (dictGet? st.proxy_errors p.1).isSome = true ∧
        (dictGet? st.proxy_timeouts p.1).isSome = true ∧
        (dictGet? st.ssl_errors p.1).isSome = true ∧
        (dictGet? st.errors p.1).isSome = true) →
      (l.map Prod.fst).Nodup →
      ∃ r, report_entries stdevFn tt st l = .ok r ∧
        (∀ url2 e, (url2, e) ∈ r → ∃ ts2, (url2, ts2) ∈ l ∧ ts2 ≠ []) ∧
        (∀ url ts, (url, ts) ∈ l → ts = [] → ∀ e, (url, e) ∉ r) ∧
        (∀ url ts, (url, ts) ∈ l → ts.length = 1 →
          ∃ e, (url, e) ∈ r ∧ e.std_dev = 0) := by
  intro l
  induction l with
  | nil =>
    intro _ _
    exact ⟨[], rfl, by simp, by simp, by simp⟩
  | cons p rest ih =>
    obtain ⟨url, ts⟩ := p
    intro hpres hnd
    have hndr : (rest.map Prod.fst).Nodup := (List.nodup_cons.mp (by simpa using hnd)).2
    have hnotin : url ∉ rest.map Prod.fst := (List.nodup_cons.mp (by simpa using hnd)).1
    obtain ⟨r', hr', hkeys, habs, hone⟩ :=
      ih (fun q hq => hpres q (List.mem_cons_of_mem _ hq)) hndr
    by_cases hts : ts.isEmpty = true
    · have hts0 : ts = [] := by simpa using hts
      refine ⟨r', ?_, ?_, ?_, ?_⟩
      · simp only [report_entries, hts, if_true]
        exact hr'
      · intro url2 e he
        obtain ⟨ts2, hts2, hne⟩ := hkeys url2 e he
        exact ⟨ts2, List.mem_cons_of_mem _ hts2, hne⟩
      · intro url3 ts3 hmem h3 e hin
        rcases List.mem_cons.mp hmem with heq | hmem2
        · have hu : url3 = url := congrArg Prod.fst heq
          subst hu
          obtain ⟨ts2, hts2, _⟩ := hkeys url3 e hin
          exact hnotin (List.mem_map_of_mem Prod.fst hts2)
        · exact habs url3 ts3 hmem2 h3 e hin
      · intro url3 ts3 hmem h1
        rcases List.mem_cons.mp hmem with heq | hmem2
        · have hts3 : ts3 = ts := congrArg Prod.snd heq
          rw [hts3, hts0] at h1
          simp at h1
        · exact hone url3 ts3 hmem2 h1
    · have htsf : ts.isEmpty = false := Bool.eq_false_iff.mpr hts
      have htsne : ts ≠ [] := by
        intro hh
        rw [hh] at htsf
        simp at htsf
      obtain ⟨h1, h2, h3, h4, h5, h6⟩ := hpres (url, ts) (List.mem_cons_self _ _)
      obtain ⟨sc, hsc⟩ := Option.isSome_iff_exists.mp h1
      obtain ⟨fc, hfc⟩ := Option.isSome_iff_exists.mp h2
      obtain ⟨pe, hpe⟩ := Option.isSome_iff_exists.mp h3
      obtain ⟨pt, hpt⟩ := Option.isSome_iff_exists.mp h4
      obtain ⟨se, hse⟩ := Option.isSome_iff_exists.mp h5
      obtain ⟨er, her⟩ := Option.isSome_iff_exists.mp h6
      have hstep : report_entries stdevFn tt st ((url, ts) :: rest) = .ok ((url,
          { total_requests := sc + fc
            success_count := sc
            failure_count := fc
            success_rate := if sc + fc > 0 then (sc : ℚ) / ((sc + fc : Nat) : ℚ) * 100 else 0
            proxy_errors := pe
            proxy_timeouts := pt
            ssl_errors := se
            avg_time := meanQ ts
            min_time := listMin ts
            max_time := listMax ts
            median_time := medianQ ts
            std_dev := if ts.length > 1 then stdevFn ts else 0
            rps := ((sc + fc : Nat) : ℚ) / tt
            error_messages := er }) :: r') := by
        simp only [report_entries, htsf, Bool.false_eq_true, if_false,
          hsc, hfc, hpe, hpt, hse, her, hr']
      refine ⟨_, hstep, ?_, ?_, ?_⟩
      · intro url2 e he
        rcases List.mem_cons.mp he with heq | hmem2
        · have hu : url2 = url := congrArg Prod.fst heq
          subst hu
          exact ⟨ts, List.mem_cons_self _ _, htsne⟩
        · obtain ⟨ts2, hts2, hne⟩ := hkeys url2 e hmem2
          exact ⟨ts2, List.mem_cons_of_mem _ hts2, hne⟩
      · intro url3 ts3 hmem h0 e hin
        rcases List.mem_cons.mp hmem with heq | hmem2
        · have hts3 : ts3 = ts := congrArg Prod.snd heq
          exact htsne (hts3 ▸ h0)
        · rcases List.mem_cons.mp hin with heq2 | hin2
          · have hu : url3 = url := congrArg Prod.fst heq2
            subst hu
            exact hnotin (List.mem_map_of_mem Prod.fst hmem2)
          · exact habs url3 ts3 hmem2 h0 e hin2
      · intro url3 ts3 hmem hlen
        rcases List.mem_cons.mp hmem with heq | hmem2
        · have hu : url3 = url := congrArg Prod.fst heq
          have hts3 : ts3 = ts := congrArg Prod.snd heq
          subst hu
          rw [hts3] at hlen
          refine ⟨_, List.mem_cons_self _ _, ?_⟩
          simp [hlen]
        · obtain ⟨e, he, hsd⟩ := hone url3 ts3 hmem2 hlen
          exact ⟨e, List.mem_cons_of_mem _ he, hsd⟩

/-- C8: report generation never fails on a well-formed state: a target with
zero latency samples is skipped outright (no entry, so no mean/median/min/max
is computed for it and no crash on an empty sequence), and the entry of a
target with exactly one latency sample reports a standard deviation of 0
without invoking `statistics.stdev` (which is kept abstract as `stdevFn`). -/
theorem report_stddev_and_absent (stdevFn : List ℚ → ℚ) (tt : ℚ) (st : TesterState)
    (hpres : ∀ p, p ∈ st.response_times →
      (dictGet? st.success_count p.1).isSome = true ∧
      (dictGet? st.failure_count p.1).isSome = true ∧
      (dictGet? st.proxy_errors p.1).isSome = true ∧
      (dictGet? st.proxy_timeouts p.1).isSome = true ∧
      (dictGet? st.ssl_errors p.1).isSome = true ∧
      (dictGet? st.errors p.1).isSome = true)
    (hnd : (st.response_times.map Prod.fst).Nodup) :
    ∃ r, print_results stdevFn tt st = .ok r ∧
      (∀ url ts, (url, ts) ∈ st.response_times → ts = [] → ∀ e, (url, e) ∉ r) ∧
      (∀ url ts, (url, ts) ∈ st.response_times → ts.length = 1 →
        ∃ e, (url, e) ∈ r ∧ e.std_dev = 0) := by
  obtain ⟨r, hr, _, habs, hone⟩ :=
    report_entries_spec stdevFn tt st st.response_times hpres hnd
  exact ⟨r, hr, habs, hone⟩

theorem report_stddev_and_absent_witness :
    ∃ r, print_results (fun _ => 37) 10 wReportState = .ok r ∧
      ∃ e, ("a", e) ∈ r ∧ e.std_dev = 0 := by
  obtain ⟨r, hr, _, hone⟩ := report_stddev_and_absent (fun _ => 37) 10 wReportState
    (by decide) (by decide)
  exact ⟨r, hr, hone "a" [1] (by decide) rfl⟩

end PyYace
